import Mathlib

/-!
Verification of the tspp compiler front end against its specification.

The definitions below are a shallow embedding of the C++ sources under
`src/`: the resolved-type lattice (`resolved_type.cpp`), the recursive-descent
expression/declaration parsers (`expression_parse_visitor.cpp`,
`primary_visitor.h`, `call_visitor.h`, `var_decl_visitor.h`), the type checker
(`type_check_visitor.cpp`, `type_scope.cpp`) and the top-level statement
buffering of the LLVM lowerer (`llvm_code_gen.cpp`).  Machine state (token
cursor, error reporter, scope chain, code generation buffers) is passed
explicitly.  Each theorem settles one claim about the program.
-/

namespace Tspp

/-- Alias for the builtin booleans, usable inside the `ResolvedType` namespace
where the constructor names `Bool`, `Int`, `String` shadow the builtins. -/
abbrev Boolean := Bool

/-- Alias for the builtin strings, usable inside the `ResolvedType` namespace
where the constructor name `String` shadows the builtin. -/
abbrev Text := String

/-- Smart pointer kinds, from `resolved_type.h` (`ResolvedType::SmartKind`). -/
inductive SmartKind where
  | Shared
  | Unique
  | Weak
deriving DecidableEq, Repr

/-- Resolved types, from `resolved_type.h`: one constructor per
`ResolvedType::TypeKind`, carrying the same payload fields the C++ class
stores for that kind (`name_`, `elementType_`, `pointeeType_`, `isUnsafe_`,
`returnType_`, `paramTypes_`, `smartKind_`, `leftType_`/`rightType_`,
`templateArgs_`). -/
inductive ResolvedType where
  | Void
  | Int
  | Float
  | Bool
  | String
  | Named (name : String)
  | Array (elementType : ResolvedType)
  | Pointer (pointeeType : ResolvedType) (isUnsafe : Bool)
  | Reference (pointeeType : ResolvedType)
  | Function (returnType : ResolvedType) (paramTypes : List ResolvedType)
  | Smart (pointeeType : ResolvedType) (smartKind : SmartKind)
  | Union (leftType : ResolvedType) (rightType : ResolvedType)
  | Template (name : String) (templateArgs : List ResolvedType)
  | Error
deriving Repr, Inhabited

/-- The `TypeKind` tag enumeration from `resolved_type.h`. -/
inductive TypeKind where
  | Void
  | Int
  | Float
  | Bool
  | String
  | Named
  | Array
  | Pointer
  | Reference
  | Function
  | Smart
  | Union
  | Template
  | Error
deriving DecidableEq, Repr

/-- `ResolvedType::getKind()`: the tag of a resolved type. -/
def ResolvedType.getKind : ResolvedType → TypeKind
  | .Void => .Void
  | .Int => .Int
  | .Float => .Float
  | .Bool => .Bool
  | .String => .String
  | .Named _ => .Named
  | .Array _ => .Array
  | .Pointer _ _ => .Pointer
  | .Reference _ => .Reference
  | .Function _ _ => .Function
  | .Smart _ _ => .Smart
  | .Union _ _ => .Union
  | .Template _ _ => .Template
  | .Error => .Error

mutual

/-- `ResolvedType::equals` from `resolved_type.cpp`: structural equality,
except that unions compare unordered (`A|B == B|A`) and pointers also compare
the `isUnsafe_` flag.  Different kinds are never equal. -/
def ResolvedType.equals : ResolvedType → ResolvedType → Boolean
  | .Void, .Void => true
  | .Int, .Int => true
  | .Float, .Float => true
  | .Bool, .Bool => true
  | .String, .String => true
  | .Error, .Error => true
  | .Named n, .Named m => n == m
  | .Array a, .Array b => a.equals b
  | .Pointer a u, .Pointer b v => a.equals b && u == v
  | .Reference a, .Reference b => a.equals b
  | .Function r ps, .Function r2 qs => r.equals r2 && ResolvedType.equalsList ps qs
  | .Smart a k, .Smart b l => a.equals b && k == l
  | .Union l r, .Union l2 r2 =>
      (l.equals l2 && r.equals r2) || (l.equals r2 && r.equals l2)
  | .Template n as, .Template m bs => n == m && ResolvedType.equalsList as bs
  | _, _ => false

/-- The element-wise loop of `ResolvedType::equals` over parameter/argument
vectors: sizes must agree and elements must be pairwise equal. -/
def ResolvedType.equalsList : List ResolvedType → List ResolvedType → Boolean
  | [], [] => true
  | a :: as, b :: bs => a.equals b && ResolvedType.equalsList as bs
  | _, _ => false

end

mutual

/-- `ResolvedType::isAssignableTo` from `resolved_type.cpp`, with the source's
check order: structural equality first; then the Error short-circuit; then
union targets; Int to Float; smart pointers (same kind, or Shared to Weak);
covariant arrays; function types (covariant return, equal arity,
contravariant parameters); otherwise not assignable. -/
def ResolvedType.isAssignableTo (t other : ResolvedType) : Boolean :=
    if t.equals other then true
    else if t.getKind == .Error || other.getKind == .Error then true
    else
      match t, other with
      | t, .Union l r => t.isAssignableTo l || t.isAssignableTo r
      | .Int, .Float => true
      | .Smart p k, .Smart q l =>
          if k == l then p.isAssignableTo q
          else if k == .Shared && l == .Weak then p.isAssignableTo q
          else false
      | .Array a, .Array b => a.isAssignableTo b
      | .Function r ps, .Function r2 qs =>
          if !(r.isAssignableTo r2) then false
          else if ps.length != qs.length then false
          else ResolvedType.paramsAssignable qs ps
      | _, _ => false
termination_by sizeOf t + sizeOf other
decreasing_by all_goals (simp_wf <;> omega)

/-- The parameter loop of `ResolvedType::isAssignableTo`: contravariance, the
target's parameter must be assignable to the source's parameter. -/
def ResolvedType.paramsAssignable : List ResolvedType → List ResolvedType → Boolean
  | [], [] => true
  | q :: qs, p :: ps => q.isAssignableTo p && ResolvedType.paramsAssignable qs ps
  | _, _ => false
termination_by qs ps => sizeOf qs + sizeOf ps
decreasing_by all_goals (simp_wf <;> omega)

end

/-- `ResolvedType::isImplicitlyConvertibleTo` from `resolved_type.cpp`:
assignability extended with Int/Float/Pointer/Smart to Bool conversions. -/
def ResolvedType.isImplicitlyConvertibleTo (t other : ResolvedType) : Boolean :=
  if t.isAssignableTo other then true
  else
    match t, other with
    | .Int, .Float => true
    | .Int, .Bool => true
    | .Float, .Bool => true
    | .Pointer _ _, .Bool => true
    | .Smart _ _, .Bool => true
    | _, _ => false

set_option maxHeartbeats 2000000 in
mutual

/-- Structural equality is reflexive (helper for the assignability claims). -/
theorem ResolvedType.equals_refl (t : ResolvedType) : t.equals t = true := by
  cases t with
  | Void => rfl
  | Int => rfl
  | Float => rfl
  | Bool => rfl
  | String => rfl
  | Error => rfl
  | Named n => simp only [ResolvedType.equals, beq_self_eq_true]
  | Array a => simp only [ResolvedType.equals]; exact ResolvedType.equals_refl a
  | Pointer a u =>
      simp only [ResolvedType.equals, ResolvedType.equals_refl a,
        beq_self_eq_true, Bool.and_self]
  | Reference a => simp only [ResolvedType.equals]; exact ResolvedType.equals_refl a
  | Function r ps =>
      simp only [ResolvedType.equals, ResolvedType.equals_refl r,
        ResolvedType.equalsList_refl ps, Bool.and_self]
  | Smart a k =>
      simp only [ResolvedType.equals, ResolvedType.equals_refl a,
        beq_self_eq_true, Bool.and_self]
  | Union l r =>
      simp only [ResolvedType.equals, ResolvedType.equals_refl l,
        ResolvedType.equals_refl r, Bool.and_self, Bool.true_or]
  | Template n as =>
      simp only [ResolvedType.equals, ResolvedType.equalsList_refl as,
        beq_self_eq_true, Bool.and_self, Bool.true_and]
termination_by sizeOf t
decreasing_by all_goals (simp_wf <;> omega)

/-- The element-wise equality loop is reflexive. -/
theorem ResolvedType.equalsList_refl (ts : List ResolvedType) :
    ResolvedType.equalsList ts ts = true := by
  cases ts with
  | nil => rfl
  | cons a as =>
      simp only [ResolvedType.equalsList, ResolvedType.equals_refl a,
        ResolvedType.equalsList_refl as, Bool.and_self]
termination_by sizeOf ts
decreasing_by all_goals (simp_wf <;> omega)

end

/-- C7: assignability is reflexive: for every resolved type `t`, of any kind,
`t.isAssignableTo t` returns `true` (the structural-equality fast path of
`ResolvedType::isAssignableTo` accepts `t` against itself). -/
theorem isAssignableTo_refl (t : ResolvedType) : t.isAssignableTo t = true := by
  rw [ResolvedType.isAssignableTo.eq_def, ResolvedType.equals_refl t]
  exact if_pos rfl

/-- C8: the Error resolved type is a two-sided unit of assignability: for every
resolved type `a`, `Error.isAssignableTo a` and `a.isAssignableTo Error` both
return `true` (via the Error short-circuit in `ResolvedType::isAssignableTo`). -/
theorem error_isAssignableTo_unit (a : ResolvedType) :
    ResolvedType.Error.isAssignableTo a = true ∧
      a.isAssignableTo ResolvedType.Error = true := by
  constructor
  · rw [ResolvedType.isAssignableTo.eq_def]
    split
    · rfl
    · exact if_pos (by simp [ResolvedType.getKind])
  · rw [ResolvedType.isAssignableTo.eq_def]
    split
    · rfl
    · exact if_pos (by simp [ResolvedType.getKind])

/-!
Token model.  The token kind enumeration and the token-stream cursor live in
`tokens/token_type.h` and `tokens/stream/token_stream.h`, which are external
collaborators of the parser sources embedded here.  They are modelled from the
spec: token kinds from the section 4.2/6 operator and keyword lists, and the
cursor operations (peek, peek next, previous, advance, check, match, consume,
save/restore position, end-of-stream) from section 4.1.
-/

/-- Modelled from the spec: the token kind enumeration (spec sections 4.2 and
6), restricted to the kinds the embedded parser fragment consumes.  `EOF_TOKEN`
stands for the end-of-stream kind. -/
inductive TokenType where
  | IDENTIFIER
  | NUMBER
  | STRING_LITERAL
  | TRUE
  | FALSE
  | THIS
  | LEFT_PAREN
  | RIGHT_PAREN
  | LEFT_BRACKET
  | RIGHT_BRACKET
  | COMMA
  | DOT
  | AT
  | SEMICOLON
  | COLON
  | LESS
  | LESS_EQUALS
  | GREATER
  | GREATER_EQUALS
  | EQUALS
  | EQUALS_EQUALS
  | EXCLAIM_EQUALS
  | EXCLAIM
  | TILDE
  | PLUS
  | MINUS
  | STAR
  | SLASH
  | PERCENT
  | PLUS_EQUALS
  | MINUS_EQUALS
  | STAR_EQUALS
  | SLASH_EQUALS
  | PERCENT_EQUALS
  | PLUS_PLUS
  | MINUS_MINUS
  | AMPERSAND
  | AMPERSAND_AMPERSAND
  | PIPE
  | PIPE_PIPE
  | CARET
  | VOID
  | INT
  | FLOAT
  | BOOLEAN
  | STRING
  | UNSAFE
  | EOF_TOKEN
deriving DecidableEq, Repr

/-- Modelled from the spec: the primitive-type keyword range check
`TYPE_BEGIN <= t && t <= TYPE_END` used by the parser; spec section 6 lists the
primitive-type keywords as `void`, `int`, `float`, `boolean`, `string`. -/
def TokenType.isTypeKeyword : TokenType → Bool
  | .VOID | .INT | .FLOAT | .BOOLEAN | .STRING => true
  | _ => false

/-- A lexed token: kind plus lexeme (source locations are dropped, they feed
only diagnostics). -/
structure Token where
  ttype : TokenType
  lexeme : String
deriving DecidableEq, Repr

/-- The parser state: the token sequence, the cursor position, and the
diagnostics accumulated by the shared error reporter. -/
structure ParserState where
  tokens : List Token
  pos : Nat
  errors : List String
deriving Repr

/-- The token returned when peeking at or past the end of the stream. -/
def eofToken : Token := { ttype := .EOF_TOKEN, lexeme := "" }

/-- Modelled from the spec (section 4.1): `is_at_end()`. -/
def isAtEnd (s : ParserState) : Bool := s.tokens.length ≤ s.pos

/-- Modelled from the spec (section 4.1): `peek()`. -/
def peek (s : ParserState) : Token := s.tokens.getD s.pos eofToken

/-- Modelled from the spec (section 4.1): `peek_next()`. -/
def peekNext (s : ParserState) : Token := s.tokens.getD (s.pos + 1) eofToken

/-- Modelled from the spec (section 4.1): `previous()`. -/
def previous (s : ParserState) : Token := s.tokens.getD (s.pos - 1) eofToken

/-- Modelled from the spec (section 4.1): `advance()` moves the cursor one
token forward. -/
def advance (s : ParserState) : ParserState := { s with pos := s.pos + 1 }

/-- `check(kind)` as defined identically in every parse visitor:
`!tokens_.isAtEnd() && tokens_.peek().getType() == type`. -/
def check (s : ParserState) (tt : TokenType) : Bool :=
  !isAtEnd s && (peek s).ttype == tt

/-- The reporter's `error(location, message)`: append a diagnostic. -/
def pushErr (s : ParserState) (msg : String) : ParserState :=
  { s with errors := s.errors ++ [msg] }

/-- `match(kind)` as defined in every parse visitor: advance iff `check`. -/
def matchTok (s : ParserState) (tt : TokenType) : Bool × ParserState :=
  if check s tt then (true, advance s) else (false, s)

/-- A chain `match(t1) || match(t2) || ...` (short-circuit, first hit wins). -/
def matchAny (s : ParserState) : List TokenType → Bool × ParserState
  | [] => (false, s)
  | tt :: tts =>
    let (m, s') := matchTok s tt
    if m then (true, s') else matchAny s' tts

/-- `consume(kind, message)` as defined in the parse visitors: `check` then
advance, otherwise report the message and fail. -/
def consume (s : ParserState) (tt : TokenType) (msg : String) : Bool × ParserState :=
  if check s tt then (true, advance s) else (false, pushErr s msg)

/-- `UnaryExpressionVisitor::isUnaryPrefixOperator` from `unary_visitor.h`. -/
def isUnaryPrefixOperator : TokenType → Bool
  | .MINUS | .EXCLAIM | .TILDE | .PLUS_PLUS | .MINUS_MINUS | .STAR | .AT => true
  | _ => false

/-- `UnaryExpressionVisitor::isUnaryPostfixOperator` from `unary_visitor.h`. -/
def isUnaryPostfixOperator : TokenType → Bool
  | .PLUS_PLUS | .MINUS_MINUS => true
  | _ => false

/-!
The AST fragment produced by the embedded parser, from
`parser/nodes/expression_nodes.h` and `parser/nodes/type_nodes.h`.
-/

/-- Expression nodes from `expression_nodes.h`, restricted to the node kinds
the embedded parser fragment produces (the `new`, `cast`, anonymous-function,
compile-time, template-specialization and pointer-expression node kinds are
outside this fragment). -/
inductive Expression where
  | IdentifierExpression (name : String)
  | LiteralExpression (ttype : TokenType) (value : String)
  | BinaryExpression (op : TokenType) (left : Expression) (right : Expression)
  | UnaryExpression (op : TokenType) (operand : Expression) (prefixFlag : Bool)
  | AssignmentExpression (op : TokenType) (target : Expression) (value : Expression)
  | CallExpression (callee : Expression) (arguments : List Expression)
      (typeArguments : List String)
  | MemberExpression (object : Expression) (member : String) (isPointer : Bool)
  | IndexExpression (array : Expression) (index : Expression)
  | ArrayLiteral (elements : List Expression)
  | ThisExpression
deriving Repr, Inhabited

/-- Pointer kinds of `PointerTypeNode` (the `aligned(N)` kind is outside the
embedded fragment). -/
inductive PointerKind where
  | Raw
  | Unsafe
deriving DecidableEq, Repr

/-- Type nodes from `type_nodes.h`, restricted to the kinds the embedded
`parseType` fragment produces (function, smart-pointer and template type nodes
are outside the fragment). -/
inductive TypeNode where
  | PrimitiveType (ttype : TokenType)
  | NamedType (name : String)
  | QualifiedType (qualifiers : List String)
  | ArrayType (elementType : TypeNode) (size : Option Expression)
  | PointerType (baseType : TypeNode) (kind : PointerKind)
  | ReferenceType (baseType : TypeNode)
  | UnionType (leftType : TypeNode) (rightType : TypeNode)
deriving Repr, Inhabited

/-- `VarDeclNode` from `declaration_nodes.h`: name, optional declared type,
optional initializer, storage class token, const flag. -/
structure VarDeclNode where
  name : String
  type : Option TypeNode
  initializer : Option Expression
  storageClass : TokenType
  isConst : Bool
deriving Repr

mutual

/-- `ExpressionParseVisitor::parseExpression` from
`expression_parse_visitor.cpp`: delegate to the lowest precedence level
(the C++ try/catch around it only converts foreign exceptions into a
diagnostic and does not fire in this fragment). -/
def parseExpression : Nat → ParserState → Option Expression × ParserState
  | 0, s => (none, s)
  | fuel + 1, s => parseAssignment fuel s

/-- `ExpressionParseVisitor::parseAssignment` from
`expression_parse_visitor.cpp`: parse a comparison, then if one of `=`, `+=`,
`-=`, `*=`, `/=` follows (note: the source matches no `%=` here), recurse
right-associatively and build an assignment node. -/
def parseAssignment : Nat → ParserState → Option Expression × ParserState
  | 0, s => (none, s)
  | fuel + 1, s =>
    match parseComparison fuel s with
    | (none, s) => (none, s)
    | (some expr, s) =>
      let (m, s) := matchAny s
        [.EQUALS, .PLUS_EQUALS, .MINUS_EQUALS, .STAR_EQUALS, .SLASH_EQUALS]
      if m then
        let op := (previous s).ttype
        match parseAssignment fuel s with
        | (none, s) => (none, s)
        | (some value, s) => (some (.AssignmentExpression op expr value), s)
      else (some expr, s)

/-- `ExpressionParseVisitor::parseComparison`: left-associative chain of
`<`, `<=`, `>`, `>=`, `==`, `!=` over additive expressions. -/
def parseComparison : Nat → ParserState → Option Expression × ParserState
  | 0, s => (none, s)
  | fuel + 1, s =>
    match parseAdditive fuel s with
    | (none, s) => (none, s)
    | (some expr, s) => parseComparisonLoop fuel expr s

/-- The `while` loop of `parseComparison`. -/
def parseComparisonLoop : Nat → Expression → ParserState → Option Expression × ParserState
  | 0, _, s => (none, s)
  | fuel + 1, expr, s =>
    let (m, s) := matchAny s
      [.LESS, .LESS_EQUALS, .GREATER, .GREATER_EQUALS, .EQUALS_EQUALS, .EXCLAIM_EQUALS]
    if m then
      let op := (previous s).ttype
      match parseAdditive fuel s with
      | (none, s) => (none, s)
      | (some right, s) => parseComparisonLoop fuel (.BinaryExpression op expr right) s
    else (some expr, s)

/-- `ExpressionParseVisitor::parseAdditive`: left-associative `+`/`-` chain. -/
def parseAdditive : Nat → ParserState → Option Expression × ParserState
  | 0, s => (none, s)
  | fuel + 1, s =>
    match parseMultiplicative fuel s with
    | (none, s) => (none, s)
    | (some expr, s) => parseAdditiveLoop fuel expr s

/-- The `while` loop of `parseAdditive`. -/
def parseAdditiveLoop : Nat → Expression → ParserState → Option Expression × ParserState
  | 0, _, s => (none, s)
  | fuel + 1, expr, s =>
    let (m, s) := matchAny s [.PLUS, .MINUS]
    if m then
      let op := (previous s).ttype
      match parseMultiplicative fuel s with
      | (none, s) => (none, s)
      | (some right, s) => parseAdditiveLoop fuel (.BinaryExpression op expr right) s
    else (some expr, s)

/-- `ExpressionParseVisitor::parseMultiplicative`: left-associative
`*`/`/`/`%` chain. -/
def parseMultiplicative : Nat → ParserState → Option Expression × ParserState
  | 0, s => (none, s)
  | fuel + 1, s =>
    match parseUnary fuel s with
    | (none, s) => (none, s)
    | (some expr, s) => parseMultiplicativeLoop fuel expr s

/-- The `while` loop of `parseMultiplicative`. -/
def parseMultiplicativeLoop : Nat → Expression → ParserState → Option Expression × ParserState
  | 0, _, s => (none, s)
  | fuel + 1, expr, s =>
    let (m, s) := matchAny s [.STAR, .SLASH, .PERCENT]
    if m then
      let op := (previous s).ttype
      match parseUnary fuel s with
      | (none, s) => (none, s)
      | (some right, s) => parseMultiplicativeLoop fuel (.BinaryExpression op expr right) s
    else (some expr, s)

/-- `UnaryExpressionVisitor::parseUnary` from `unary_visitor.h` (its leading
`new`-expression branch is outside the embedded fragment): prefix operators
recurse, then a primary expression, then postfix `++`/`--`. -/
def parseUnary : Nat → ParserState → Option Expression × ParserState
  | 0, s => (none, s)
  | fuel + 1, s =>
    if isUnaryPrefixOperator (peek s).ttype then
      let op := peek s
      let s := advance s
      match parseUnary fuel s with
      | (none, s) => (none, s)
      | (some operand, s) => (some (.UnaryExpression op.ttype operand true), s)
    else
      match parsePrimary fuel s with
      | (none, s) => (none, s)
      | (some expr, s) => parseUnaryPostfixLoop fuel expr s

/-- The postfix `++`/`--` loop of `parseUnary`. -/
def parseUnaryPostfixLoop : Nat → Expression → ParserState → Option Expression × ParserState
  | 0, _, s => (none, s)
  | fuel + 1, expr, s =>
    if isUnaryPostfixOperator (peek s).ttype then
      let op := peek s
      let s := advance s
      parseUnaryPostfixLoop fuel (.UnaryExpression op.ttype expr false) s
    else (some expr, s)

/-- `PrimaryExpressionVisitor::parsePrimary` from `primary_visitor.h`: array
literals, `this`, identifiers (with the generic-call lookahead: save position,
scan `<` type-argument-list `>` `(`, restore, commit), literals, parenthesized
expressions (the anonymous-function branch is outside the fragment). -/
def parsePrimary : Nat → ParserState → Option Expression × ParserState
  | 0, s => (none, s)
  | fuel + 1, s =>
    let (m, s) := matchTok s .LEFT_BRACKET
    if m then parseArrayLiteral fuel s
    else
      let (m, s) := matchTok s .THIS
      if m then parsePostfixOperations fuel .ThisExpression s
      else
        let (m, s) := matchTok s .IDENTIFIER
        if m then
          let tok := previous s
          let expr := Expression.IdentifierExpression tok.lexeme
          if check s .LESS then
            let savedPos := s.pos
            let s := advance s
            let (isGenericCall, s) :=
              if check s .IDENTIFIER || (peek s).ttype.isTypeKeyword then
                scanGenericCallLoop fuel (advance s)
              else (false, s)
            let s := { s with pos := savedPos }
            if isGenericCall then parseGenericFunctionCall fuel expr s
            else parsePostfixOperations fuel expr s
          else parsePostfixOperations fuel expr s
        else
          let (m, s) := matchAny s [.NUMBER, .STRING_LITERAL, .TRUE, .FALSE]
          if m then
            let tok := previous s
            parsePostfixOperations fuel (.LiteralExpression tok.ttype tok.lexeme) s
          else
            let (m, s) := matchTok s .LEFT_PAREN
            if m then
              match parseExpression fuel s with
              | (none, s) => (none, s)
              | (some expr, s) =>
                let (ok, s) := consume s .RIGHT_PAREN "Expected ')' after expression"
                if ok then parsePostfixOperations fuel expr s else (none, s)
            else (none, pushErr s "Expected expression")

/-- The lookahead scan loop of `parsePrimary` (`while (!tokens_.isAtEnd())`):
after the first type name was skipped, accept `,` type-name repetitions until
a `>` is found, and report a generic call iff the `>` is followed by `(`. -/
def scanGenericCallLoop : Nat → ParserState → Bool × ParserState
  | 0, s => (false, s)
  | fuel + 1, s =>
    if isAtEnd s then (false, s)
    else if check s .GREATER then
      let s := advance s
      (check s .LEFT_PAREN, s)
    else if check s .COMMA then
      let s := advance s
      if check s .IDENTIFIER || (peek s).ttype.isTypeKeyword then
        scanGenericCallLoop fuel (advance s)
      else (false, s)
    else (false, s)

/-- `PrimaryExpressionVisitor::parseGenericFunctionCall` from
`primary_visitor.h`: consume `<`, the comma-separated type-argument lexemes,
`>`, then a parenthesized value-argument list; build a call node carrying the
type arguments and continue with postfix operations. -/
def parseGenericFunctionCall : Nat → Expression → ParserState → Option Expression × ParserState
  | 0, _, s => (none, s)
  | fuel + 1, expr, s =>
    let s := advance s
    match parseGenericTypeArgsLoop fuel [] s with
    | (none, s) => (none, s)
    | (some typeArgs, s) =>
      let (ok, s) := consume s .GREATER "Expected '>' after generic type arguments"
      if !ok then (none, s)
      else
        let (ok, s) := consume s .LEFT_PAREN "Expected '(' after generic type arguments"
        if !ok then (none, s)
        else
          let (args?, s) :=
            if !check s .RIGHT_PAREN then parseCallArgsLoop fuel [] s
            else (some [], s)
          match args? with
          | none => (none, s)
          | some args =>
            let (ok, s) := consume s .RIGHT_PAREN "Expected ')' after function arguments"
            if !ok then (none, s)
            else parsePostfixOperations fuel (.CallExpression expr args typeArgs) s

/-- The do-while type-argument loop of `parseGenericFunctionCall`. -/
def parseGenericTypeArgsLoop : Nat → List String → ParserState → Option (List String) × ParserState
  | 0, _, s => (none, s)
  | fuel + 1, acc, s =>
    if check s .IDENTIFIER || (peek s).ttype.isTypeKeyword then
      let acc := acc ++ [(peek s).lexeme]
      let s := advance s
      if !check s .COMMA then (some acc, s)
      else
        let s := advance s
        if isAtEnd s then (some acc, s)
        else parseGenericTypeArgsLoop fuel acc s
    else (none, pushErr s "Expected type name in generic type arguments")

/-- The do-while argument loop shared by the call sites in
`primary_visitor.h` (`parseGenericFunctionCall` and the `(` branch of
`parsePostfixOperations`): arguments separated by commas. -/
def parseCallArgsLoop : Nat → List Expression → ParserState → Option (List Expression) × ParserState
  | 0, _, s => (none, s)
  | fuel + 1, acc, s =>
    match parseExpression fuel s with
    | (none, s) => (none, s)
    | (some arg, s) =>
      let acc := acc ++ [arg]
      let (m, s) := matchTok s .COMMA
      if m then parseCallArgsLoop fuel acc s else (some acc, s)

/-- `PrimaryExpressionVisitor::parsePostfixOperations` from
`primary_visitor.h`: repeatedly apply member access (`.`), array indexing
(`[...]`) and call (`(...)`) suffixes. -/
def parsePostfixOperations : Nat → Expression → ParserState → Option Expression × ParserState
  | 0, _, s => (none, s)
  | fuel + 1, expr, s =>
    let (m, s) := matchTok s .DOT
    if m then
      if (peek s).ttype != .IDENTIFIER then
        (none, pushErr s "Expected property name after '.'")
      else
        let memberToken := peek s
        let s := advance s
        parsePostfixOperations fuel (.MemberExpression expr memberToken.lexeme false) s
    else
      let (m, s) := matchTok s .LEFT_BRACKET
      if m then
        match parseExpression fuel s with
        | (none, s) => (none, s)
        | (some index, s) =>
          let (ok, s) := consume s .RIGHT_BRACKET "Expected ']' after array index"
          if !ok then (none, s)
          else parsePostfixOperations fuel (.IndexExpression expr index) s
      else
        let (m, s) := matchTok s .LEFT_PAREN
        if m then
          let (args?, s) :=
            if !check s .RIGHT_PAREN then parseCallArgsLoop fuel [] s
            else (some [], s)
          match args? with
          | none => (none, s)
          | some args =>
            let (ok, s) := consume s .RIGHT_PAREN "Expected ')' after function arguments"
            if !ok then (none, s)
            else parsePostfixOperations fuel (.CallExpression expr args []) s
        else (some expr, s)

/-- `PrimaryExpressionVisitor::parseArrayLiteral` from `primary_visitor.h`
(entered with `[` already consumed): an empty `[]` yields a zero-element
array-literal node; otherwise comma-separated elements then `]`. -/
def parseArrayLiteral : Nat → ParserState → Option Expression × ParserState
  | 0, s => (none, s)
  | fuel + 1, s =>
    if check s .RIGHT_BRACKET then
      (some (.ArrayLiteral []), advance s)
    else
      match parseArrayElementsLoop fuel [] s with
      | (none, s) => (none, s)
      | (some elements, s) =>
        let (ok, s) := consume s .RIGHT_BRACKET "Expected ']' after array elements"
        if ok then (some (.ArrayLiteral elements), s) else (none, s)

/-- The do-while element loop of `parseArrayLiteral`. -/
def parseArrayElementsLoop : Nat → List Expression → ParserState → Option (List Expression) × ParserState
  | 0, _, s => (none, s)
  | fuel + 1, acc, s =>
    match parseExpression fuel s with
    | (none, s) => (none, s)
    | (some element, s) =>
      let acc := acc ++ [element]
      let (m, s) := matchTok s .COMMA
      if m then parseArrayElementsLoop fuel acc s else (some acc, s)

/-- `CallExpressionVisitor::finishCall` from `call_visitor.h` (entered with
`(` already consumed): parse the comma-separated argument list, enforcing the
255-argument cap, then `)`, and build a call node. -/
def finishCall : Nat → Expression → ParserState → Option Expression × ParserState
  | 0, _, s => (none, s)
  | fuel + 1, callee, s =>
    let (args?, s) :=
      if !check s .RIGHT_PAREN then finishCallArgsLoop fuel [] s
      else (some [], s)
    match args? with
    | none => (none, s)
    | some args =>
      let (ok, s) := consume s .RIGHT_PAREN "Expected ')' after arguments"
      if ok then (some (.CallExpression callee args []), s) else (none, s)

/-- The do-while argument loop of `finishCall`, with the
`arguments.size() >= 255` guard at the top of each iteration. -/
def finishCallArgsLoop : Nat → List Expression → ParserState → Option (List Expression) × ParserState
  | 0, _, s => (none, s)
  | fuel + 1, acc, s =>
    if acc.length ≥ 255 then
      (none, pushErr s "Cannot have more than 255 arguments")
    else
      match parseExpression fuel s with
      | (none, s) => (none, s)
      | (some arg, s) =>
        let acc := acc ++ [arg]
        let (m, s) := matchTok s .COMMA
        if m then finishCallArgsLoop fuel acc s else (some acc, s)

/-- `DeclarationParseVisitor::parseType` from
`declaration_parse_visitor.cpp`, restricted to the fragment the claims need:
a primary type followed by the pointer/array/reference/union modifier loop
(the function-type, smart-pointer and template-type branches are outside the
fragment). -/
def parseType : Nat → ParserState → Option TypeNode × ParserState
  | 0, s => (none, s)
  | fuel + 1, s =>
    match parsePrimaryType fuel s with
    | (none, s) => (none, s)
    | (some type, s) => parseTypeModifiersLoop fuel type s

/-- The modifier `while` loop of `parseType`: `@` pointer (optionally
`unsafe`), `[...]` array, `&` reference, `|` union. -/
def parseTypeModifiersLoop : Nat → TypeNode → ParserState → Option TypeNode × ParserState
  | 0, _, s => (none, s)
  | fuel + 1, type, s =>
    let (m, s) := matchTok s .AT
    if m then
      let (mu, s) := matchTok s .UNSAFE
      let kind := if mu then PointerKind.Unsafe else PointerKind.Raw
      parseTypeModifiersLoop fuel (.PointerType type kind) s
    else
      let (m, s) := matchTok s .LEFT_BRACKET
      if m then
        let (size?, s) :=
          if !check s .RIGHT_BRACKET then
            match parseExpression fuel s with
            | (none, s) => (none, s)
            | (some e, s) => (some (some e), s)
          else (some none, s)
        match size? with
        | none => (none, s)
        | some sizeExpr =>
          let (ok, s) := consume s .RIGHT_BRACKET "Expected ']' after array type"
          if !ok then (none, s)
          else parseTypeModifiersLoop fuel (.ArrayType type sizeExpr) s
      else
        let (m, s) := matchTok s .AMPERSAND
        if m then parseTypeModifiersLoop fuel (.ReferenceType type) s
        else
          let (m, s) := matchTok s .PIPE
          if m then
            match parsePrimaryType fuel s with
            | (none, s) => (none, s)
            | (some rightType, s) =>
              parseTypeModifiersLoop fuel (.UnionType type rightType) s
          else (some type, s)

/-- `DeclarationParseVisitor::parsePrimaryType` from
`declaration_parse_visitor.cpp`: a primitive-type keyword, or an identifier
optionally extended to a dotted qualified name. -/
def parsePrimaryType : Nat → ParserState → Option TypeNode × ParserState
  | 0, s => (none, s)
  | fuel + 1, s =>
    if (peek s).ttype.isTypeKeyword then
      let tt := (peek s).ttype
      (some (.PrimitiveType tt), advance s)
    else if check s .IDENTIFIER then
      let first := (peek s).lexeme
      let s := advance s
      let (identifiers, s) := parseQualifiedLoop fuel [first] s
      if identifiers.length > 1 then (some (.QualifiedType identifiers), s)
      else (some (.NamedType (identifiers.getD 0 "")), s)
    else (none, pushErr s "Expected type name or primitive type")

/-- The dotted-name loop of `parsePrimaryType`: repeat while a `.` is followed
by an identifier. -/
def parseQualifiedLoop : Nat → List String → ParserState → List String × ParserState
  | 0, acc, s => (acc, s)
  | fuel + 1, acc, s =>
    if check s .DOT && (peekNext s).ttype == .IDENTIFIER then
      let s := advance s
      let acc := acc ++ [(peek s).lexeme]
      parseQualifiedLoop fuel acc (advance s)
    else (acc, s)

/-- `VariableDeclarationVisitor::parseVarDecl` from `var_decl_visitor.h`:
name, optional `: type` annotation, optional `= initializer` (mandatory when
`isConst`, else the error `Const declarations must have an initializer`),
terminating `;`. -/
def parseVarDecl : Nat → Bool → TokenType → ParserState → Option VarDeclNode × ParserState
  | 0, _, _, s => (none, s)
  | fuel + 1, isConst, storageClass, s =>
    let (m, s) := matchTok s .IDENTIFIER
    if !m then (none, pushErr s "Expected variable name")
    else
      let name := (previous s).lexeme
      let (m, s) := matchTok s .COLON
      let (typeRes, s) :=
        if m then
          match parseType fuel s with
          | (none, s) => (none, s)
          | (some t, s) => (some (some t), s)
        else (some none, s)
      match typeRes with
      | none => (none, s)
      | some type? =>
        let (m, s) := matchTok s .EQUALS
        if m then
          match parseExpression fuel s with
          | (none, s) => (none, s)
          | (some initializer, s) =>
            let (ok, s) := consume s .SEMICOLON "Expected ';' after variable declaration"
            if ok then
              (some { name := name, type := type?, initializer := some initializer,
                      storageClass := storageClass, isConst := isConst }, s)
            else (none, s)
        else if isConst then
          (none, pushErr s "Const declarations must have an initializer")
        else
          let (ok, s) := consume s .SEMICOLON "Expected ';' after variable declaration"
          if ok then
            (some { name := name, type := type?, initializer := none,
                    storageClass := storageClass, isConst := isConst }, s)
          else (none, s)

end

/-!
Type checker embedding, from `type_check_visitor.cpp` and `type_scope.cpp`.
The checker state carries the scope chain (innermost frame first), the shared
error reporter's diagnostics, and the `inLoop_` / `currentFunctionReturnType_`
/ `currentClassType_` members of `TypeCheckVisitor`.
-/

/-- `ParameterNode` from `declaration_nodes.h`: name, type annotation,
optional default value, ref/const flags. -/
structure ParameterNode where
  name : String
  type : TypeNode
  defaultValue : Option Expression
  isRef : Bool
  isConst : Bool

mutual

/-- Statement nodes from `statement_nodes.h`, restricted to the kinds the
embedded checker fragment needs (if/while/do-while/for/for-of/return/
switch/try/throw/assembly/labeled statements are outside the fragment). -/
inductive Statement where
  | ExpressionStmt (expression : Expression)
  | Block (statements : List Statement)
  | BreakStmt
  | ContinueStmt
  | DeclarationStmt (declaration : DeclNode)

/-- The declaration node kinds a `DeclarationStmtNode` can wrap in this
fragment: variable declarations and function declarations (a function
declaration node is its name, parameters, optional return type and optional
body block). -/
inductive DeclNode where
  | VarDecl (decl : VarDeclNode)
  | FunctionDecl (name : String) (parameters : List ParameterNode)
      (returnType : Option TypeNode) (body : Option (List Statement))

end

/-- Top-level AST nodes, as dispatched by `TypeCheckVisitor::checkAST`:
declarations or statements (class/enum/interface/typedef/namespace nodes are
outside the fragment, so the first collection pass of `checkAST` has nothing
to do). -/
inductive TopNode where
  | Decl (declaration : DeclNode)
  | Stmt (statement : Statement)

/-- One `TypeScope` symbol table from `type_scope.h`: keyed maps for
variables, functions and types. -/
structure Frame where
  variables_ : List (String × ResolvedType)
  functions_ : List (String × ResolvedType)
  types_ : List (String × ResolvedType)
deriving Repr

/-- The empty scope frame. -/
def emptyFrame : Frame := { variables_ := [], functions_ := [], types_ := [] }

/-- The `TypeCheckVisitor` state: the scope chain (`currentScope_` is the
head frame, parents follow), the reporter's diagnostics, and the visitor's
`inLoop_`, `currentFunctionReturnType_` and `currentClassType_` members. -/
structure CheckerState where
  scopes : List Frame
  errors : List String
  inLoop : Bool
  currentFunctionReturnType : Option ResolvedType
  currentClassType : Option ResolvedType
deriving Repr

/-- First-match lookup in one keyed map (`unordered_map::find`; declaration
conses, so the most recent binding wins, matching map assignment). -/
def lookupIn : List (String × ResolvedType) → String → Option ResolvedType
  | [], _ => none
  | (k, v) :: rest, n => if k == n then some v else lookupIn rest n

/-- `TypeScope::lookupVariable`: current frame first, then the parents. -/
def lookupVariable : List Frame → String → Option ResolvedType
  | [], _ => none
  | f :: rest, n =>
    match lookupIn f.variables_ n with
    | some t => some t
    | none => lookupVariable rest n

/-- `TypeScope::lookupFunction`: current frame first, then the parents. -/
def lookupFunction : List Frame → String → Option ResolvedType
  | [], _ => none
  | f :: rest, n =>
    match lookupIn f.functions_ n with
    | some t => some t
    | none => lookupFunction rest n

/-- `TypeScope::lookupType`: current frame first, then the parents. -/
def lookupType : List Frame → String → Option ResolvedType
  | [], _ => none
  | f :: rest, n =>
    match lookupIn f.types_ n with
    | some t => some t
    | none => lookupType rest n

/-- `TypeScope::declareVariable` on the current scope. -/
def declareVariable (s : CheckerState) (n : String) (t : ResolvedType) : CheckerState :=
  match s.scopes with
  | [] => s
  | f :: rest => { s with scopes := { f with variables_ := (n, t) :: f.variables_ } :: rest }

/-- `TypeScope::declareFunction` on the current scope. -/
def declareFunction (s : CheckerState) (n : String) (t : ResolvedType) : CheckerState :=
  match s.scopes with
  | [] => s
  | f :: rest => { s with scopes := { f with functions_ := (n, t) :: f.functions_ } :: rest }

/-- `TypeScope::declareType` on the current scope. -/
def declareType (s : CheckerState) (n : String) (t : ResolvedType) : CheckerState :=
  match s.scopes with
  | [] => s
  | f :: rest => { s with scopes := { f with types_ := (n, t) :: f.types_ } :: rest }

/-- `TypeCheckVisitor::error`: forward a diagnostic to the reporter. -/
def tcError (s : CheckerState) (msg : String) : CheckerState :=
  { s with errors := s.errors ++ [msg] }

/-- `TypeCheckVisitor::enterScope`:
`currentScope_ = currentScope_->createChildScope()`. -/
def enterScope (s : CheckerState) : CheckerState :=
  { s with scopes := emptyFrame :: s.scopes }

/-- `TypeCheckVisitor::exitScope`.  The source is
`if (currentScope_->createChildScope()) currentScope_ =
currentScope_->createChildScope();` with the comment `This should be parent,
but we don't have parent accessor`: instead of popping to the parent it
replaces the current scope by a fresh child of the scope being exited, so the
exited scope's bindings stay reachable through the parent chain. -/
def exitScope (s : CheckerState) : CheckerState :=
  { s with scopes := emptyFrame :: s.scopes }

/-- `TypeCheckVisitor::enterFunctionScope`. -/
def enterFunctionScope (s : CheckerState) (returnType : ResolvedType) : CheckerState :=
  { enterScope s with currentFunctionReturnType := some returnType }

/-- `TypeCheckVisitor::exitFunctionScope`. -/
def exitFunctionScope (s : CheckerState) : CheckerState :=
  exitScope { s with currentFunctionReturnType := none }

/-- The `TypeCheckVisitor` constructor: built-in primitive types declared in
the fresh global scope. -/
def initialCheckerState : CheckerState :=
  let s : CheckerState :=
    { scopes := [emptyFrame], errors := [], inLoop := false,
      currentFunctionReturnType := none, currentClassType := none }
  let s := declareType s "void" .Void
  let s := declareType s "int" .Int
  let s := declareType s "float" .Float
  let s := declareType s "bool" .Bool
  let s := declareType s "string" .String
  s

mutual

/-- `ResolvedType::toString` from `resolved_type.cpp`. -/
def ResolvedType.toDiagString : ResolvedType → Text
  | .Void => "void"
  | .Int => "int"
  | .Float => "float"
  | .Bool => "bool"
  | .String => "string"
  | .Named n => n
  | .Array e => e.toDiagString ++ "[]"
  | .Pointer p u => if u then p.toDiagString ++ "@unsafe" else p.toDiagString ++ "@"
  | .Reference p => p.toDiagString ++ "&"
  | .Function r ps =>
      "function(" ++ ResolvedType.listToDiagString ps ++ "): " ++ r.toDiagString
  | .Smart p k =>
      match k with
      | .Shared => "#shared<" ++ p.toDiagString ++ ">"
      | .Unique => "#unique<" ++ p.toDiagString ++ ">"
      | .Weak => "#weak<" ++ p.toDiagString ++ ">"
  | .Union l r => l.toDiagString ++ " | " ++ r.toDiagString
  | .Template n as => n ++ "<" ++ ResolvedType.listToDiagString as ++ ">"
  | .Error => "error_type"

/-- The comma-separated element printing loop of `ResolvedType::toString`. -/
def ResolvedType.listToDiagString : List ResolvedType → Text
  | [] => ""
  | [p] => p.toDiagString
  | p :: ps => p.toDiagString ++ ", " ++ ResolvedType.listToDiagString ps

end

/-- `ResolvedType::getParameterTypes()`; the source only calls it after a
Function kind check. -/
def ResolvedType.getParameterTypes : ResolvedType → List ResolvedType
  | .Function _ ps => ps
  | _ => []

/-- `ResolvedType::getReturnType()`; the source only calls it after a
Function kind check. -/
def ResolvedType.getReturnType : ResolvedType → ResolvedType
  | .Function r _ => r
  | _ => .Error

/-- `ResolvedType::getElementType()`; the source only calls it after an
Array kind check. -/
def ResolvedType.getElementType : ResolvedType → ResolvedType
  | .Array e => e
  | _ => .Error

/-- Modelled from the spec: `tokens::isArithmeticOperator` lives in the
external `tokens/token_type.h`; spec section 4.2 level 11/12 operators. -/
def isArithmeticOperator : TokenType → Bool
  | .PLUS | .MINUS | .STAR | .SLASH | .PERCENT => true
  | _ => false

/-- Modelled from the spec: `tokens::isComparisonOperator`; spec section 4.2
level 8/9 operators. -/
def isComparisonOperator : TokenType → Bool
  | .LESS | .LESS_EQUALS | .GREATER | .GREATER_EQUALS
  | .EQUALS_EQUALS | .EXCLAIM_EQUALS => true
  | _ => false

/-- Modelled from the spec: `tokens::isLogicalOperator`; spec section 4.2
level 3/4 operators. -/
def isLogicalOperator : TokenType → Bool
  | .AMPERSAND_AMPERSAND | .PIPE_PIPE => true
  | _ => false

/-- Modelled from the spec: `tokens::isBitwiseOperator`; spec section 4.2
level 5/6/7 operators. -/
def isBitwiseOperator : TokenType → Bool
  | .AMPERSAND | .PIPE | .CARET => true
  | _ => false

/-- `TypeCheckVisitor::checkBinaryOp` from `type_check_visitor.cpp`:
arithmetic (numeric promotion, string concatenation under `+`), comparison,
logical and bitwise operator categories. -/
def checkBinaryOp (op : TokenType) (leftType rightType : ResolvedType)
    (s : CheckerState) : ResolvedType × CheckerState :=
  if isArithmeticOperator op then
    if (leftType.getKind == .Int || leftType.getKind == .Float) &&
        (rightType.getKind == .Int || rightType.getKind == .Float) then
      if leftType.getKind == .Float || rightType.getKind == .Float then (.Float, s)
      else (.Int, s)
    else if op == .PLUS &&
        (leftType.getKind == .String || rightType.getKind == .String) then
      (.String, s)
    else (.Error, tcError s "Invalid operands for arithmetic operator")
  else if isComparisonOperator op then
    if leftType.isAssignableTo rightType || rightType.isAssignableTo leftType then
      (.Bool, s)
    else (.Error, tcError s "Cannot compare incompatible types")
  else if isLogicalOperator op then
    if leftType.isImplicitlyConvertibleTo .Bool &&
        rightType.isImplicitlyConvertibleTo .Bool then
      (.Bool, s)
    else (.Error, tcError s "Logical operators require boolean operands")
  else if isBitwiseOperator op then
    if leftType.getKind == .Int && rightType.getKind == .Int then (.Int, s)
    else (.Error, tcError s "Bitwise operators require integer operands")
  else (.Error, tcError s "Unhandled binary operator in type checking")

/-- `TypeCheckVisitor::checkUnaryOp` from `type_check_visitor.cpp`. -/
def checkUnaryOp (op : TokenType) (operandType : ResolvedType)
    (s : CheckerState) : ResolvedType × CheckerState :=
  match op with
  | .PLUS | .MINUS =>
    if operandType.getKind == .Int || operandType.getKind == .Float then
      (operandType, s)
    else (.Error, tcError s "Unary +/- requires numeric operand")
  | .EXCLAIM =>
    if operandType.isImplicitlyConvertibleTo .Bool then (.Bool, s)
    else (.Error, tcError s "Logical NOT requires boolean operand")
  | .TILDE =>
    if operandType.getKind == .Int then (.Int, s)
    else (.Error, tcError s "Bitwise NOT requires integer operand")
  | .PLUS_PLUS | .MINUS_MINUS =>
    if operandType.getKind == .Int || operandType.getKind == .Float then
      (operandType, s)
    else (.Error, tcError s "Increment/decrement requires numeric operand")
  | .STAR =>
    match operandType with
    | .Pointer pointee _ => (pointee, s)
    | _ => (.Error, tcError s "Dereference requires pointer operand")
  | .AT => (.Pointer operandType false, s)
  | _ => (.Error, tcError s "Unhandled unary operator in type checking")

/-- `TypeCheckVisitor::checkAssignmentCompatibility`. -/
def checkAssignmentCompatibility (targetType valueType : ResolvedType)
    (s : CheckerState) : Bool × CheckerState :=
  if valueType.isAssignableTo targetType then (true, s)
  else
    (false, tcError s ("Cannot assign " ++ valueType.toDiagString ++ " to " ++
      targetType.toDiagString))

/-- `TypeCheckVisitor::visitLiteralExpr`: numbers split on a decimal point,
strings and booleans map to their primitive types. -/
def visitLiteralExpr (ttype : TokenType) (value : String)
    (s : CheckerState) : ResolvedType × CheckerState :=
  match ttype with
  | .NUMBER => if value.data.contains '.' then (.Float, s) else (.Int, s)
  | .STRING_LITERAL => (.String, s)
  | .TRUE | .FALSE => (.Bool, s)
  | _ => (.Error, tcError s "Unknown literal type")

/-- `TypeCheckVisitor::visitIdentifierExpr`: variable lookup, then function
lookup, else an undefined-identifier diagnostic. -/
def visitIdentifierExpr (name : String) (s : CheckerState) :
    ResolvedType × CheckerState :=
  match lookupVariable s.scopes name with
  | some t => (t, s)
  | none =>
    match lookupFunction s.scopes name with
    | some t => (t, s)
    | none => (.Error, tcError s ("Undefined identifier: " ++ name))

/-- `TypeCheckVisitor::visitThisExpr`. -/
def visitThisExpr (s : CheckerState) : ResolvedType × CheckerState :=
  match s.currentClassType with
  | none => (.Error, tcError s "'this' can only be used inside a class")
  | some t => (t, s)

/-- `TypeCheckVisitor::visitPrimitiveType`. -/
def visitPrimitiveType (ttype : TokenType) (s : CheckerState) :
    ResolvedType × CheckerState :=
  match ttype with
  | .VOID => (.Void, s)
  | .INT => (.Int, s)
  | .FLOAT => (.Float, s)
  | .BOOLEAN => (.Bool, s)
  | .STRING => (.String, s)
  | _ => (.Error, tcError s "Unknown primitive type")

/-- `TypeCheckVisitor::visitNamedType`: type lookup through the scope chain. -/
def visitNamedType (name : String) (s : CheckerState) :
    ResolvedType × CheckerState :=
  match lookupType s.scopes name with
  | some t => (t, s)
  | none => (.Error, tcError s ("Undefined type: " ++ name))

/-- `TypeCheckVisitor::visitQualifiedType`: resolves the last qualifier as a
named type. -/
def visitQualifiedType (qualifiers : List String) (s : CheckerState) :
    ResolvedType × CheckerState :=
  match qualifiers.getLast? with
  | none => (.Error, tcError s "Empty qualified type")
  | some last =>
    match lookupType s.scopes last with
    | some t => (t, s)
    | none => (.Error, tcError s "Undefined qualified type")

/-- `TypeCheckVisitor::visitAssignmentExpr`'s compound-operator switch:
the binary operator corresponding to a compound assignment token. -/
def compoundBinaryOp : TokenType → Option TokenType
  | .PLUS_EQUALS => some .PLUS
  | .MINUS_EQUALS => some .MINUS
  | .STAR_EQUALS => some .STAR
  | .SLASH_EQUALS => some .SLASH
  | .PERCENT_EQUALS => some .PERCENT
  | _ => none

/-- Diagnostic of the fuel-exhaustion escape hatch of the fueled checker
functions below; it never fires on inputs whose depth is below the fuel. -/
def fuelMsg : String := "internal: type checker fuel exhausted"

mutual

/-- `TypeCheckVisitor::visitExpr` from `type_check_visitor.cpp`: dispatch on
the expression node kind.  The bodies of `visitBinaryExpr`, `visitUnaryExpr`,
`visitCallExpr`, `visitAssignmentExpr`, `visitMemberExpr` and
`visitIndexExpr` are transcribed inline into their dispatch arms. -/
def visitExpr : Nat → Expression → CheckerState → ResolvedType × CheckerState
  | 0, _, s => (.Error, tcError s fuelMsg)
  | fuel + 1, e, s =>
    match e with
    | .BinaryExpression op l r =>
      let (leftType, s) := visitExpr fuel l s
      let (rightType, s) := visitExpr fuel r s
      checkBinaryOp op leftType rightType s
    | .UnaryExpression op operand _ =>
      let (operandType, s) := visitExpr fuel operand s
      checkUnaryOp op operandType s
    | .LiteralExpression tt v => visitLiteralExpr tt v s
    | .IdentifierExpression n => visitIdentifierExpr n s
    | .CallExpression callee args typeArgs =>
      let (calleeType, s) := visitExpr fuel callee s
      if calleeType.getKind != .Function then
        (.Error, tcError s "Cannot call non-function type")
      else checkFunctionCall fuel calleeType args typeArgs s
    | .AssignmentExpression op target value =>
      let (targetType, s) := visitExpr fuel target s
      let (valueType, s) := visitExpr fuel value s
      if op == .EQUALS then
        let (ok, s) := checkAssignmentCompatibility targetType valueType s
        if !ok then (.Error, tcError s "Cannot assign incompatible type")
        else (targetType, s)
      else
        match compoundBinaryOp op with
        | none => (.Error, tcError s "Unsupported compound assignment operator")
        | some binaryOp =>
          let (resultType, s) := checkBinaryOp binaryOp targetType valueType s
          if !resultType.isAssignableTo targetType then
            (.Error, tcError s "Result of compound assignment is not assignable to target")
          else (targetType, s)
    | .MemberExpression obj _ _ =>
      let (_, s) := visitExpr fuel obj s
      (.Error, tcError s "Member access type checking not fully implemented")
    | .IndexExpression arr idx =>
      let (arrayType, s) := visitExpr fuel arr s
      let (indexType, s) := visitExpr fuel idx s
      if arrayType.getKind != .Array then
        (.Error, tcError s "Cannot index non-array type")
      else
        let s := if !indexType.isAssignableTo .Int then
            tcError s "Array index must be an integer"
          else s
        (arrayType.getElementType, s)
    | .ArrayLiteral elements => visitArrayLiteral fuel elements s
    | .ThisExpression => visitThisExpr s

/-- `TypeCheckVisitor::visitArrayLiteral`: an empty literal reports
`Cannot determine type of empty array literal` and yields the Error type;
otherwise the first element fixes the element type. -/
def visitArrayLiteral : Nat → List Expression → CheckerState →
    ResolvedType × CheckerState
  | 0, _, s => (.Error, tcError s fuelMsg)
  | fuel + 1, elements, s =>
    match elements with
    | [] => (.Error, tcError s "Cannot determine type of empty array literal")
    | e0 :: rest =>
      let (elementType, s) := visitExpr fuel e0 s
      arrayElementsCheckLoop fuel elementType rest s

/-- The remaining-elements loop of `visitArrayLiteral`: each further element
must be assignable to the first element's type. -/
def arrayElementsCheckLoop : Nat → ResolvedType → List Expression →
    CheckerState → ResolvedType × CheckerState
  | 0, _, _, s => (.Error, tcError s fuelMsg)
  | fuel + 1, elementType, elements, s =>
    match elements with
    | [] => (.Array elementType, s)
    | e :: rest =>
      let (nextType, s) := visitExpr fuel e s
      if !nextType.isAssignableTo elementType then
        (.Error, tcError s "Array elements must have compatible types")
      else arrayElementsCheckLoop fuel elementType rest s

/-- `TypeCheckVisitor::checkFunctionCall`: Function kind, matching arity,
then each argument checked against its parameter type. -/
def checkFunctionCall : Nat → ResolvedType → List Expression → List String →
    CheckerState → ResolvedType × CheckerState
  | 0, _, _, _, s => (.Error, tcError s fuelMsg)
  | fuel + 1, calleeType, args, _, s =>
    if calleeType.getKind != .Function then
      (.Error, tcError s "Cannot call non-function type")
    else
      let paramTypes := calleeType.getParameterTypes
      if paramTypes.length != args.length then
        (.Error, tcError s "Wrong number of arguments")
      else
        let s := callArgsCheckLoop fuel (args.zip paramTypes) s
        (calleeType.getReturnType, s)

/-- The argument loop of `checkFunctionCall`: visit each argument and report
(without aborting) any argument type mismatch. -/
def callArgsCheckLoop : Nat → List (Expression × ResolvedType) →
    CheckerState → CheckerState
  | 0, _, s => tcError s fuelMsg
  | _ + 1, [], s => s
  | fuel + 1, (arg, paramType) :: rest, s =>
    let (argType, s) := visitExpr fuel arg s
    let s := if !argType.isAssignableTo paramType then
        tcError s "Argument type mismatch"
      else s
    callArgsCheckLoop fuel rest s

/-- `TypeCheckVisitor::visitType`: dispatch on the type node kind.  The
bodies of `visitArrayType`, `visitPointerType`, `visitReferenceType` and
`visitUnionType` are transcribed inline into their dispatch arms. -/
def visitType : Nat → TypeNode → CheckerState → ResolvedType × CheckerState
  | 0, _, s => (.Error, tcError s fuelMsg)
  | fuel + 1, ty, s =>
    match ty with
    | .PrimitiveType tt => visitPrimitiveType tt s
    | .NamedType n => visitNamedType n s
    | .QualifiedType qs => visitQualifiedType qs s
    | .ArrayType elem size? =>
      let (elementType, s) := visitType fuel elem s
      let s :=
        match size? with
        | some sizeExpr =>
          let (sizeType, s) := visitExpr fuel sizeExpr s
          if !sizeType.isAssignableTo .Int then
            tcError s "Array size must be an integer"
          else s
        | none => s
      (.Array elementType, s)
    | .PointerType base kind =>
      let (pointeeType, s) := visitType fuel base s
      (.Pointer pointeeType (kind == .Unsafe), s)
    | .ReferenceType base =>
      let (baseType, s) := visitType fuel base s
      (.Reference baseType, s)
    | .UnionType l r =>
      let (leftType, s) := visitType fuel l s
      let (rightType, s) := visitType fuel r s
      (.Union leftType rightType, s)

/-- `TypeCheckVisitor::visitVarDecl`: visit the initializer and the declared
type when present; an explicit type with an incompatible initializer is an
error, and a declaration with neither type nor initializer is an error;
otherwise declare and return the variable's type. -/
def visitVarDecl : Nat → VarDeclNode → CheckerState → ResolvedType × CheckerState
  | 0, _, s => (.Error, tcError s fuelMsg)
  | fuel + 1, node, s =>
    let (initType?, s) :=
      match node.initializer with
      | some init =>
        let (t, s) := visitExpr fuel init s
        (some t, s)
      | none => (none, s)
    let (declaredType?, s) :=
      match node.type with
      | some ty =>
        let (t, s) := visitType fuel ty s
        (some t, s)
      | none => (none, s)
    match declaredType? with
    | some declaredType =>
      match initType? with
      | some initType =>
        let (ok, s) := checkAssignmentCompatibility declaredType initType s
        if !ok then
          (.Error, tcError s "Initializer type doesn't match variable type")
        else (declaredType, declareVariable s node.name declaredType)
      | none => (declaredType, declareVariable s node.name declaredType)
    | none =>
      match initType? with
      | some initType => (initType, declareVariable s node.name initType)
      | none =>
        (.Error, tcError s
          "Variable declaration needs either a type or an initializer for type inference")

/-- `TypeCheckVisitor::visitParameter`: the annotated type, wrapped in a
Reference for `ref` parameters, with the optional default value checked. -/
def visitParameter : Nat → ParameterNode → CheckerState → ResolvedType × CheckerState
  | 0, _, s => (.Error, tcError s fuelMsg)
  | fuel + 1, p, s =>
    let (paramType, s) := visitType fuel p.type s
    let paramType := if p.isRef then ResolvedType.Reference paramType else paramType
    match p.defaultValue with
    | some dv =>
      let (defaultType, s) := visitExpr fuel dv s
      let (ok, s) := checkAssignmentCompatibility paramType defaultType s
      let s := if !ok then tcError s "Parameter default value type mismatch" else s
      (paramType, s)
    | none => (paramType, s)

/-- The parameter-type collection loop of `visitFuncDecl`. -/
def paramTypesLoop : Nat → List ParameterNode → List ResolvedType →
    CheckerState → List ResolvedType × CheckerState
  | 0, _, acc, s => (acc, tcError s fuelMsg)
  | _ + 1, [], acc, s => (acc, s)
  | fuel + 1, p :: rest, acc, s =>
    let (paramType, s) := visitParameter fuel p s
    paramTypesLoop fuel rest (acc ++ [paramType]) s

/-- The parameter-declaration loop of `visitFuncDecl` (the source visits
every parameter a second time and declares it in the function scope). -/
def declareParamsLoop : Nat → List ParameterNode → CheckerState → CheckerState
  | 0, _, s => tcError s fuelMsg
  | _ + 1, [], s => s
  | fuel + 1, p :: rest, s =>
    let (paramType, s) := visitParameter fuel p s
    declareParamsLoop fuel rest (declareVariable s p.name paramType)

/-- `TypeCheckVisitor::visitFuncDecl`: resolve the return type (void when
absent), collect parameter types, declare the function, then check the body
in a fresh function scope with the parameters declared; the function type is
returned unconditionally. -/
def visitFuncDecl : Nat → String → List ParameterNode → Option TypeNode →
    Option (List Statement) → CheckerState → ResolvedType × CheckerState
  | 0, _, _, _, _, s => (.Error, tcError s fuelMsg)
  | fuel + 1, name, parameters, returnType?, body?, s =>
    let (returnType, s) :=
      match returnType? with
      | some rt => visitType fuel rt s
      | none => (ResolvedType.Void, s)
    let (paramTypes, s) := paramTypesLoop fuel parameters [] s
    let functionType := ResolvedType.Function returnType paramTypes
    let s := declareFunction s name functionType
    let s := enterFunctionScope s returnType
    let s := declareParamsLoop fuel parameters s
    let s :=
      match body? with
      | some body => (visitBlock fuel body s).2
      | none => s
    let s := exitFunctionScope s
    (functionType, s)

/-- `TypeCheckVisitor::visitStmt`, restricted to the fragment's statement
kinds; the bodies of `visitExprStmt`, `visitBreakStmt` and
`visitContinueStmt` are transcribed inline into their dispatch arms. -/
def visitStmt : Nat → Statement → CheckerState → ResolvedType × CheckerState
  | 0, _, s => (.Error, tcError s fuelMsg)
  | fuel + 1, st, s =>
    match st with
    | .ExpressionStmt e =>
      let (_, s) := visitExpr fuel e s
      (.Void, s)
    | .Block stmts => visitBlock fuel stmts s
    | .BreakStmt =>
      let s := if !s.inLoop then tcError s "Break statement must be inside a loop" else s
      (.Void, s)
    | .ContinueStmt =>
      let s := if !s.inLoop then tcError s "Continue statement must be inside a loop" else s
      (.Void, s)
    | .DeclarationStmt d => visitDeclarationStmt fuel d s

/-- `TypeCheckVisitor::visitBlock`: enter a scope, visit the statements,
exit the scope (via the buggy `exitScope`), yield void. -/
def visitBlock : Nat → List Statement → CheckerState → ResolvedType × CheckerState
  | 0, _, s => (.Error, tcError s fuelMsg)
  | fuel + 1, stmts, s =>
    let s := enterScope s
    let s := blockStmtsLoop fuel stmts s
    let s := exitScope s
    (.Void, s)

/-- The statement loop of `visitBlock`. -/
def blockStmtsLoop : Nat → List Statement → CheckerState → CheckerState
  | 0, _, s => tcError s fuelMsg
  | _ + 1, [], s => s
  | fuel + 1, st :: rest, s =>
    let (_, s) := visitStmt fuel st s
    blockStmtsLoop fuel rest s

/-- `TypeCheckVisitor::visitDeclarationStmt`, restricted to the fragment's
declaration kinds. -/
def visitDeclarationStmt : Nat → DeclNode → CheckerState → ResolvedType × CheckerState
  | 0, _, s => (.Error, tcError s fuelMsg)
  | fuel + 1, d, s =>
    match d with
    | .VarDecl v => visitVarDecl fuel v s
    | .FunctionDecl name params rt body => visitFuncDecl fuel name params rt body s

end

/-- The second pass of `TypeCheckVisitor::checkAST`: visit every top-level
node and clear the success flag whenever a visit yields the Error kind. -/
def checkASTSecondPass (fuel : Nat) : List TopNode → Bool → CheckerState →
    Bool × CheckerState
  | [], success, s => (success, s)
  | node :: rest, success, s =>
    let (t, s) :=
      match node with
      | .Decl (.VarDecl v) => visitVarDecl fuel v s
      | .Decl (.FunctionDecl name params rt body) =>
          visitFuncDecl fuel name params rt body s
      | .Stmt st => visitStmt fuel st s
    let success := if t.getKind == .Error then false else success
    checkASTSecondPass fuel rest success s

/-- `TypeCheckVisitor::checkAST`: the first pass declares top-level type
declarations (class/enum/interface/typedef), none of which exist in this
fragment of node kinds, so it is the identity here; the second pass visits
every node and accumulates the success flag. -/
def checkAST (fuel : Nat) (nodes : List TopNode) (s : CheckerState) :
    Bool × CheckerState :=
  checkASTSecondPass fuel nodes true s

/-!
Lowering model for the top-level statement buffering and default `main`
synthesis of `LLVMCodeGen` (`llvm_code_gen.cpp`).  The lowering of function
bodies, globals and the IR realization of individual statements is abstracted:
an emitted statement of the synthesized `main` is represented by its source
payload, which is all the buffering/ordering claims observe.
-/

/-- A statement emitted into the entry block of the synthesized `main`:
a lowered inline-assembly statement, a lowered top-level expression
statement, or the final `ret i32 0`. -/
inductive EmittedStmt where
  | asm (code : String)
  | expr (payload : Expression)
  | retZero

/-- Top-level AST nodes as dispatched by
`LLVMCodeGen::visitTopLevelDeclaration`, restricted to the fragment the
claims need (global variables, classes and namespaces are outside the
fragment). -/
inductive CGTopNode where
  | FunctionDecl (name : String)
  | ExprStmt (expression : Expression)
  | AsmStmt (code : String)

/-- The `LLVMCodeGen` state: the names of the functions present in the LLVM
module, the two top-level statement buffers
(`topLevelAssemblyStatements_` and `topLevelExpressionStatements_`), and the
reporter's diagnostics. -/
structure CGState where
  moduleFunctions : List String
  topLevelAssemblyStatements : List String
  topLevelExpressionStatements : List Expression
  errors : List String

/-- Reporter `error` call of the lowerer. -/
def cgError (s : CGState) (msg : String) : CGState :=
  { s with errors := s.errors ++ [msg] }

/-- `LLVMCodeGen::declareExternalFunctions`: declare `printf`, `puts`,
`malloc` and `free` stubs when absent. -/
def declareExternalFunctions (s : CGState) : CGState :=
  let addIfAbsent := fun (s : CGState) (n : String) =>
    if s.moduleFunctions.contains n then s
    else { s with moduleFunctions := s.moduleFunctions ++ [n] }
  let s := addIfAbsent s "printf"
  let s := addIfAbsent s "puts"
  let s := addIfAbsent s "malloc"
  addIfAbsent s "free"

/-- `LLVMCodeGen::visitFunctionDecl`, reduced to what the top-level claims
observe: a duplicate name is an error, otherwise the function is created in
the module under its name (the lowering of its signature and body is
abstracted away). -/
def visitFunctionDecl (name : String) (s : CGState) : Bool × CGState :=
  if s.moduleFunctions.contains name then
    (false, cgError s ("Function '" ++ name ++ "' already declared"))
  else
    (true, { s with moduleFunctions := s.moduleFunctions ++ [name] })

/-- `LLVMCodeGen::visitTopLevelStatement`: assembly statements and
expression statements are stored, each in its own buffer, to be executed in
`main`. -/
def visitTopLevelStatement (n : CGTopNode) (s : CGState) : Bool × CGState :=
  match n with
  | .AsmStmt code =>
    (true, { s with topLevelAssemblyStatements :=
        s.topLevelAssemblyStatements ++ [code] })
  | .ExprStmt e =>
    (true, { s with topLevelExpressionStatements :=
        s.topLevelExpressionStatements ++ [e] })
  | _ => (true, s)

/-- `LLVMCodeGen::visitTopLevelDeclaration`: dispatch to the function or
statement handler. -/
def visitTopLevelDeclaration (n : CGTopNode) (s : CGState) : Bool × CGState :=
  match n with
  | .FunctionDecl name => visitFunctionDecl name s
  | .ExprStmt _ => visitTopLevelStatement n s
  | .AsmStmt _ => visitTopLevelStatement n s

/-- `LLVMCodeGen::createDefaultMainFunction`: create `main`, emit every
buffered top-level assembly statement, then every buffered top-level
expression statement, then `ret i32 0`. -/
def createDefaultMainFunction (s : CGState) : List EmittedStmt × CGState :=
  (s.topLevelAssemblyStatements.map EmittedStmt.asm ++
     s.topLevelExpressionStatements.map EmittedStmt.expr ++
     [EmittedStmt.retZero],
   { s with moduleFunctions := s.moduleFunctions ++ ["main"] })

/-- The cleared lowerer state `generateCode` starts from (empty module,
empty buffers, fresh reporter). -/
def initialCGState : CGState :=
  { moduleFunctions := [], topLevelAssemblyStatements := [],
    topLevelExpressionStatements := [], errors := [] }

/-- The top-level node loop of `LLVMCodeGen::generateCode`: abort with an
error as soon as one node fails. -/
def generateCodeLoop : List CGTopNode → CGState → Bool × CGState
  | [], s => (true, s)
  | n :: rest, s =>
    let (ok, s) := visitTopLevelDeclaration n s
    if !ok then (false, cgError s "Failed to process top-level declaration")
    else generateCodeLoop rest s

/-- `LLVMCodeGen::generateCode` (function verification and the optimizer
pass are outside the fragment): clear the buffers, declare the external
stubs, process every top-level node, and synthesize a default `main` iff the
module has none; the synthesized body, when one is created, is returned
alongside the success flag. -/
def generateCode (nodes : List CGTopNode) : (Bool × Option (List EmittedStmt)) × CGState :=
  let s := declareExternalFunctions initialCGState
  match generateCodeLoop nodes s with
  | (false, s) => ((false, none), s)
  | (true, s) =>
    if s.moduleFunctions.contains "main" then ((true, none), s)
    else
      let (body, s) := createDefaultMainFunction s
      ((true, some body), s)

/-- The function names a top-level node list declares, in source order. -/
def declaredFunctionNames : List CGTopNode → List String
  | [] => []
  | .FunctionDecl n :: rest => n :: declaredFunctionNames rest
  | _ :: rest => declaredFunctionNames rest

/-- The inline-assembly payloads of a top-level node list, in source order. -/
def topLevelAsmCodes : List CGTopNode → List String
  | [] => []
  | .AsmStmt c :: rest => c :: topLevelAsmCodes rest
  | _ :: rest => topLevelAsmCodes rest

/-- The expression-statement payloads of a top-level node list, in source
order. -/
def topLevelExprPayloads : List CGTopNode → List Expression
  | [] => []
  | .ExprStmt e :: rest => e :: topLevelExprPayloads rest
  | _ :: rest => topLevelExprPayloads rest

/-!
Concrete inputs used by the claim theorems.
-/

/-- A parser state over a token list, at position 0, with a fresh reporter. -/
def parserStateOf (ts : List Token) : ParserState :=
  { tokens := ts, pos := 0, errors := [] }

/-- Tokens of the source text `a < b > (c)` with `a`, `b`, `c` plain
identifiers; whitespace is not significant, so this is the same token
sequence as `a<b>(c)`. -/
def tokensLtGt : List Token :=
  [{ ttype := .IDENTIFIER, lexeme := "a" }, { ttype := .LESS, lexeme := "<" },
   { ttype := .IDENTIFIER, lexeme := "b" }, { ttype := .GREATER, lexeme := ">" },
   { ttype := .LEFT_PAREN, lexeme := "(" }, { ttype := .IDENTIFIER, lexeme := "c" },
   { ttype := .RIGHT_PAREN, lexeme := ")" }]

/-- Tokens of the source text `f<T>(c)` where `T` names a type. -/
def tokensGenericCall : List Token :=
  [{ ttype := .IDENTIFIER, lexeme := "f" }, { ttype := .LESS, lexeme := "<" },
   { ttype := .IDENTIFIER, lexeme := "T" }, { ttype := .GREATER, lexeme := ">" },
   { ttype := .LEFT_PAREN, lexeme := "(" }, { ttype := .IDENTIFIER, lexeme := "c" },
   { ttype := .RIGHT_PAREN, lexeme := ")" }]

/-- Tokens of the source text `a %= b`. -/
def tokensPercentAssign : List Token :=
  [{ ttype := .IDENTIFIER, lexeme := "a" },
   { ttype := .PERCENT_EQUALS, lexeme := "%=" },
   { ttype := .IDENTIFIER, lexeme := "b" }]

/-- Tokens of the source text `a /= b`. -/
def tokensSlashAssign : List Token :=
  [{ ttype := .IDENTIFIER, lexeme := "a" },
   { ttype := .SLASH_EQUALS, lexeme := "/=" },
   { ttype := .IDENTIFIER, lexeme := "b" }]

/-- Tokens of the empty array literal `[]`. -/
def tokensEmptyArray : List Token :=
  [{ ttype := .LEFT_BRACKET, lexeme := "[" },
   { ttype := .RIGHT_BRACKET, lexeme := "]" }]

/-- Tokens of `x : int ;` (the tail of `const x: int;` after the `const`
keyword dispatched the declaration parser with `isConst = true`). -/
def tokensConstNoInit : List Token :=
  [{ ttype := .IDENTIFIER, lexeme := "x" }, { ttype := .COLON, lexeme := ":" },
   { ttype := .INT, lexeme := "int" }, { ttype := .SEMICOLON, lexeme := ";" }]

/-- Tokens of `x : int = 1 ;`. -/
def tokensConstInit : List Token :=
  [{ ttype := .IDENTIFIER, lexeme := "x" }, { ttype := .COLON, lexeme := ":" },
   { ttype := .INT, lexeme := "int" }, { ttype := .EQUALS, lexeme := "=" },
   { ttype := .NUMBER, lexeme := "1" }, { ttype := .SEMICOLON, lexeme := ";" }]

/-- A `const x: int;` declaration node (explicit type, no initializer). -/
def constNoInitDecl : VarDeclNode :=
  { name := "x", type := some (.PrimitiveType .INT), initializer := none,
    storageClass := .IDENTIFIER, isConst := true }

/-- The statement `{ { let x = 1; } x; }`: a block whose first statement is a
nested block declaring `x`, followed by a sibling statement that uses `x`. -/
def nestedScopeBlock : Statement :=
  .Block
    [.Block [.DeclarationStmt (.VarDecl
        { name := "x", type := none,
          initializer := some (.LiteralExpression .NUMBER "1"),
          storageClass := .IDENTIFIER, isConst := false })],
     .ExpressionStmt (.IdentifierExpression "x")]

/-- The top-level AST `function f() { break; }`: one function declaration
whose body contains a statement that reports an error (break outside a
loop) while the function visit still returns a Function-kind type. -/
def funcWithBreakAST : List TopNode :=
  [.Decl (.FunctionDecl "f" [] none (some [.BreakStmt]))]

/-- C3 counterexample: on the token stream of `a < b > (c)` (three plain
identifiers) the parser does not produce two chained comparisons; the
lookahead accepts `< b > (` as a generic-call head, so the result is a call
expression with type argument `b` and value argument `c`. -/
theorem claim_C3_counterexample :
    (parseExpression 50 (parserStateOf tokensLtGt)).1 =
      some (.CallExpression (.IdentifierExpression "a")
        [.IdentifierExpression "c"] ["b"]) ∧
    (parseExpression 50 (parserStateOf tokensLtGt)).2.pos = 7 ∧
    (parseExpression 50 (parserStateOf tokensLtGt)).2.errors = [] := by
  exact ⟨rfl, rfl, rfl⟩

/-- C3 amended: `a < b > (c)` and `f<T>(c)` tokenize identically, and the
parser resolves both the same way: after saving the position on
`identifier <`, scanning `<` type-argument-list `>` `(` and restoring, it
commits to a generic call with exactly one type argument and one value
argument (no comparison tree is produced for `a < b > (c)`). -/
theorem claim_C3_amended :
    (parseExpression 50 (parserStateOf tokensLtGt)).1 =
      some (.CallExpression (.IdentifierExpression "a")
        [.IdentifierExpression "c"] ["b"]) ∧
    (parseExpression 50 (parserStateOf tokensGenericCall)).1 =
      some (.CallExpression (.IdentifierExpression "f")
        [.IdentifierExpression "c"] ["T"]) ∧
    (parseExpression 50 (parserStateOf tokensGenericCall)).2.errors = [] := by
  exact ⟨rfl, rfl, rfl⟩

/-- C5: the parser never recognizes `%=`: on `a %= b` it stops after the
identifier `a` (position 1, no assignment node is built and the `%= b` tail
is left unconsumed), while the other five assignment operators (here `/=`)
do produce assignment nodes — although the type checker's
compound-assignment switch handles `PERCENT_EQUALS` (mapping it to `%`,
which types `int % int` as `int`), so the rest of the pipeline expects such
nodes to exist. -/
theorem claim_C5_percent_equals_dropped :
    (parseExpression 50 (parserStateOf tokensPercentAssign)).1 =
      some (.IdentifierExpression "a") ∧
    (parseExpression 50 (parserStateOf tokensPercentAssign)).2.pos = 1 ∧
    (parseExpression 50 (parserStateOf tokensSlashAssign)).1 =
      some (.AssignmentExpression .SLASH_EQUALS (.IdentifierExpression "a")
        (.IdentifierExpression "b")) ∧
    compoundBinaryOp .PERCENT_EQUALS = some .PERCENT ∧
    checkBinaryOp .PERCENT .Int .Int initialCheckerState =
      (.Int, initialCheckerState) := by
  exact ⟨rfl, rfl, rfl, rfl, rfl⟩

/-- C2: evaluation of the checker at the failing input
`{ { let x = 1; } x; }`.  After the inner block is exited, `x` is still
visible to the sibling statement (no `Undefined identifier` diagnostic is
reported, and `x` still resolves to `int`), and the scope chain has grown
from 1 frame to 5 instead of returning to the original frame: `exitScope`
pushes a fresh child instead of popping to the parent. -/
theorem claim_C2_scope_not_restored :
    (visitStmt 50 nestedScopeBlock initialCheckerState).2.errors = [] ∧
    lookupVariable (visitStmt 50 nestedScopeBlock initialCheckerState).2.scopes "x" =
      some .Int ∧
    (visitStmt 50 nestedScopeBlock initialCheckerState).2.scopes.length = 5 ∧
    initialCheckerState.scopes.length = 1 := by
  exact ⟨rfl, rfl, rfl, rfl⟩

/-- C6 counterexample: the type checker accepts a `const x: int;` node
silently: `visitVarDecl` has no const check, returns `int` and reports
nothing. -/
theorem claim_C6_counterexample :
    (visitVarDecl 50 constNoInitDecl initialCheckerState).1 = .Int ∧
    (visitVarDecl 50 constNoInitDecl initialCheckerState).2.errors = [] := by
  exact ⟨rfl, rfl⟩

/-- C1 counterexample: for the AST `function f() { break; }` the checker
reports the break-outside-loop error while checking the function body, yet
`checkAST` still returns `true`, because `visitFuncDecl` returns a
Function-kind type regardless of diagnostics inside the body. -/
theorem claim_C1_counterexample :
    (checkAST 50 funcWithBreakAST initialCheckerState).1 = true ∧
    (checkAST 50 funcWithBreakAST initialCheckerState).2.errors =
      ["Break statement must be inside a loop"] := by
  exact ⟨rfl, rfl⟩

/-- The argument-list loop of `finishCall` never returns more than 255
arguments: the guard rejects a 256th argument before parsing it. -/
theorem finishCallArgsLoop_bound :
    ∀ fuel acc s args s',
      finishCallArgsLoop fuel acc s = (some args, s') → args.length ≤ 255 := by
  intro fuel
  induction fuel with
  | zero => intro acc s args s' h; simp [finishCallArgsLoop] at h
  | succ fuel ih =>
    intro acc s args s' h
    simp only [finishCallArgsLoop] at h
    split at h
    · simp at h
    · split at h
      · simp at h
      · split at h
        · exact ih _ _ _ _ h
        · rename_i hacc _ _ _ _ _
          obtain ⟨hargs, _⟩ := Prod.mk.injEq .. ▸ h
          simp only [Option.some.injEq] at hargs
          subst hargs
          simp only [List.length_append, List.length_cons, List.length_nil]
          omega

/-- C10: `finishCall` bounds argument lists at 255.  First conjunct: every
call node this path produces carries at most 255 arguments (and exactly the
given callee with no type arguments).  Second conjunct: whenever the
argument loop comes back around with 255 arguments already collected (a
256th argument is pending), it reports `Cannot have more than 255 arguments`
and produces no node. -/
theorem claim_C10_call_argument_limit :
    (∀ fuel callee s e s', finishCall fuel callee s = (some e, s') →
      ∃ args, e = .CallExpression callee args [] ∧ args.length ≤ 255) ∧
    (∀ fuel acc s, acc.length = 255 →
      finishCallArgsLoop (fuel + 1) acc s =
        (none, pushErr s "Cannot have more than 255 arguments")) := by
  constructor
  · intro fuel callee s e s' h
    match fuel with
    | 0 => simp [finishCall] at h
    | fuel + 1 =>
      simp only [finishCall] at h
      rcases hio : (if (!check s TokenType.RIGHT_PAREN) = true
          then finishCallArgsLoop fuel [] s else (some [], s)) with ⟨args?, s1⟩
      rw [hio] at h
      cases args? with
      | none => simp at h
      | some args =>
        simp only at h
        rcases hc : consume s1 TokenType.RIGHT_PAREN "Expected ')' after arguments"
          with ⟨ok, s2⟩
        rw [hc] at h
        cases ok with
        | false => simp at h
        | true =>
          simp only [reduceIte, Prod.mk.injEq, Option.some.injEq] at h
          obtain ⟨he, _⟩ := h
          refine ⟨args, he.symm, ?_⟩
          by_cases hchk : (!check s TokenType.RIGHT_PAREN) = true
          · rw [if_pos hchk] at hio
            exact finishCallArgsLoop_bound fuel [] s args s1 hio
          · rw [if_neg hchk] at hio
            simp only [Prod.mk.injEq, Option.some.injEq] at hio
            obtain ⟨h1, _⟩ := hio
            subst h1
            simp
  · intro fuel acc s hacc
    simp [finishCallArgsLoop, hacc]

/-- C10 witness: the bound instantiated at the one-argument call `(x)`. -/
theorem claim_C10_witness :
    ∃ args, (Expression.CallExpression (.IdentifierExpression "f")
        [.IdentifierExpression "x"] [] : Expression) =
      .CallExpression (.IdentifierExpression "f") args [] ∧ args.length ≤ 255 :=
  claim_C10_call_argument_limit.1 20 (.IdentifierExpression "f")
    (parserStateOf [{ ttype := .IDENTIFIER, lexeme := "x" },
      { ttype := .RIGHT_PAREN, lexeme := ")" }]) _ _ rfl

/-- C6 amended: the const-without-initializer error belongs to the parser.
First conjunct: every const variable declaration node `parseVarDecl`
produces carries an initializer.  Second conjunct: on `const x: int;` the
parser reports `Const declarations must have an initializer` and produces no
node (while the type checker, per the counterexample, accepts such a node
silently). -/
theorem claim_C6_amended :
    (∀ fuel storageClass s d s',
      parseVarDecl fuel true storageClass s = (some d, s') →
      d.isConst = true ∧ d.initializer.isSome = true) ∧
    parseVarDecl 50 true .IDENTIFIER (parserStateOf tokensConstNoInit) =
      (none,
        { tokens := tokensConstNoInit, pos := 3,
          errors := ["Const declarations must have an initializer"] }) := by
  constructor
  · intro fuel storageClass s d s' h
    match fuel with
    | 0 => simp [parseVarDecl] at h
    | fuel + 1 =>
      simp only [parseVarDecl] at h
      repeat' split at h
      all_goals simp_all
      all_goals obtain ⟨hd, _⟩ := h
      all_goals subst hd
      all_goals simp
  · rfl

/-- C6 witness: the amended claim instantiated at `const x: int = 1;`. -/
theorem claim_C6_witness :
    ({ name := "x", type := some (.PrimitiveType .INT),
       initializer := some (.LiteralExpression .NUMBER "1"),
       storageClass := .IDENTIFIER, isConst := true } : VarDeclNode).isConst = true ∧
    ({ name := "x", type := some (.PrimitiveType .INT),
       initializer := some (.LiteralExpression .NUMBER "1"),
       storageClass := .IDENTIFIER, isConst := true } : VarDeclNode).initializer.isSome
      = true :=
  claim_C6_amended.1 50 .IDENTIFIER (parserStateOf tokensConstInit) _ _ rfl

/-- The AST `e; #asm("a");`: a top-level expression statement followed by a
top-level inline-assembly statement. -/
def interleavedNodes : List CGTopNode :=
  [.ExprStmt (.IdentifierExpression "e"), .AsmStmt "a"]

/-- The loop of `generateCode` on duplicate-free function names: every node
succeeds, function names accumulate in the module and the two statement
buffers accumulate their kinds in source order. -/
theorem generateCodeLoop_spec : ∀ nodes s,
    (∀ n ∈ declaredFunctionNames nodes, n ∉ s.moduleFunctions) →
    (declaredFunctionNames nodes).Nodup →
    generateCodeLoop nodes s =
      (true, { s with
        moduleFunctions := s.moduleFunctions ++ declaredFunctionNames nodes,
        topLevelAssemblyStatements :=
          s.topLevelAssemblyStatements ++ topLevelAsmCodes nodes,
        topLevelExpressionStatements :=
          s.topLevelExpressionStatements ++ topLevelExprPayloads nodes }) := by
  intro nodes
  induction nodes with
  | nil => intro s _ _; simp [generateCodeLoop, declaredFunctionNames,
      topLevelAsmCodes, topLevelExprPayloads]
  | cons node rest ih =>
    intro s hfresh hnodup
    cases node with
    | FunctionDecl n =>
      have hn : n ∉ s.moduleFunctions := hfresh n (by simp [declaredFunctionNames])
      have hcontains : s.moduleFunctions.contains n = false := by
        simp [hn]
      simp only [generateCodeLoop, visitTopLevelDeclaration, visitFunctionDecl,
        hcontains, Bool.false_eq_true, if_neg, reduceIte, Bool.not_true]
      rw [ih]
      · simp [declaredFunctionNames, topLevelAsmCodes, topLevelExprPayloads]
      · intro m hm
        simp only [List.mem_append, List.mem_singleton]
        rintro (hm2 | rfl)
        · exact hfresh m (by simp [declaredFunctionNames, hm]) hm2
        · have := (List.nodup_cons.mp
            (by simpa [declaredFunctionNames] using hnodup)).1
          exact this hm
      · have := List.nodup_cons.mp (by simpa [declaredFunctionNames] using hnodup)
        exact this.2
    | ExprStmt e =>
      simp only [generateCodeLoop, visitTopLevelDeclaration, visitTopLevelStatement,
        Bool.not_true, reduceIte]
      rw [ih]
      · simp [declaredFunctionNames, topLevelAsmCodes, topLevelExprPayloads]
      · intro m hm; exact hfresh m (by simpa [declaredFunctionNames] using hm)
      · simpa [declaredFunctionNames] using hnodup
    | AsmStmt c =>
      simp only [generateCodeLoop, visitTopLevelDeclaration, visitTopLevelStatement,
        Bool.not_true, reduceIte]
      rw [ih]
      · simp [declaredFunctionNames, topLevelAsmCodes, topLevelExprPayloads]
      · intro m hm; exact hfresh m (by simpa [declaredFunctionNames] using hm)
      · simpa [declaredFunctionNames] using hnodup

/-- C4 counterexample: for the input `e; #asm("a");` (no `main` declared),
the synthesized `main` emits the assembly statement before the expression
statement, not in source order: the two statement kinds are buffered
separately and the assembly buffer is replayed first. -/
theorem claim_C4_counterexample :
    (generateCode interleavedNodes).1 =
      (true, some [.asm "a", .expr (.IdentifierExpression "e"), .retZero]) ∧
    (generateCode interleavedNodes).1 ≠
      (true, some [.expr (.IdentifierExpression "e"), .asm "a", .retZero]) := by
  constructor
  · rfl
  · intro h
    simp [generateCode, interleavedNodes, initialCGState, declareExternalFunctions,
      generateCodeLoop, visitTopLevelDeclaration, visitTopLevelStatement,
      createDefaultMainFunction] at h

/-- C4 amended: for every top-level node list declaring pairwise-distinct
function names, none of them `main` and none colliding with the
pre-declared `printf`/`puts`/`malloc`/`free` stubs, the lowerer synthesizes
a `main` that emits all buffered top-level assembly statements in source
order, then all buffered top-level expression statements in source order —
the relative order of the two kinds is not preserved — and then returns
integer zero. -/
theorem claim_C4_amended : ∀ nodes : List CGTopNode,
    "main" ∉ declaredFunctionNames nodes →
    (declaredFunctionNames nodes).Nodup →
    (∀ n ∈ declaredFunctionNames nodes,
      n ∉ (["printf", "puts", "malloc", "free"] : List String)) →
    (generateCode nodes).1 =
      (true, some ((topLevelAsmCodes nodes).map EmittedStmt.asm ++
        (topLevelExprPayloads nodes).map EmittedStmt.expr ++ [.retZero])) := by
  intro nodes hmain hnodup hext
  have hdecl : declareExternalFunctions initialCGState =
      { moduleFunctions := ["printf", "puts", "malloc", "free"],
        topLevelAssemblyStatements := [], topLevelExpressionStatements := [],
        errors := [] } := rfl
  have hloop := generateCodeLoop_spec nodes (declareExternalFunctions initialCGState)
    (by intro n hn; rw [hdecl]; exact hext n hn) hnodup
  rw [hdecl] at hloop
  simp only [List.nil_append] at hloop
  simp [generateCode, hdecl, hloop, createDefaultMainFunction, hmain]

/-- C4 witness: the amended claim instantiated at `e; #asm("a");`. -/
theorem claim_C4_witness :
    (generateCode interleavedNodes).1 =
      (true, some ((topLevelAsmCodes interleavedNodes).map EmittedStmt.asm ++
        (topLevelExprPayloads interleavedNodes).map EmittedStmt.expr ++
        [.retZero])) :=
  claim_C4_amended interleavedNodes (by simp [interleavedNodes, declaredFunctionNames])
    (by simp [interleavedNodes, declaredFunctionNames])
    (by simp [interleavedNodes, declaredFunctionNames])

/-- The reporter only accumulates: state sp extends state s. -/
def ErrsExtend (s s' : CheckerState) : Prop := ∃ t, s'.errors = s.errors ++ t

theorem ErrsExtend.rfl (s : CheckerState) : ErrsExtend s s := ⟨[], by simp⟩

theorem ErrsExtend.teq {s s' : CheckerState} (h : s'.errors = s.errors) :
    ErrsExtend s s' := ⟨[], by simp [h]⟩

theorem ErrsExtend.trans {a b c : CheckerState}
    (h1 : ErrsExtend a b) (h2 : ErrsExtend b c) : ErrsExtend a c := by
  obtain ⟨t1, ht1⟩ := h1
  obtain ⟨t2, ht2⟩ := h2
  exact ⟨t1 ++ t2, by simp [ht2, ht1]⟩

theorem ErrsExtend.push (s : CheckerState) (m : String) :
    ErrsExtend s (tcError s m) := ⟨[m], by simp [tcError]⟩

theorem ErrsExtend.ne_nil {s s' : CheckerState}
    (h : ErrsExtend s s') (hne : s.errors ≠ []) : s'.errors ≠ [] := by
  obtain ⟨t, ht⟩ := h
  simp [ht, hne]

theorem extendSnd {α : Type} {s s' : CheckerState} {p : α × CheckerState} {a : α}
    (hp : p = (a, s')) (h : ErrsExtend s p.2) : ErrsExtend s s' := by
  rw [hp] at h; exact h

theorem declareVariable_errors (s : CheckerState) (n : String) (t : ResolvedType) :
    (declareVariable s n t).errors = s.errors := by
  unfold declareVariable; split <;> rfl

theorem declareFunction_errors (s : CheckerState) (n : String) (t : ResolvedType) :
    (declareFunction s n t).errors = s.errors := by
  unfold declareFunction; split <;> rfl

theorem checkBinaryOp_extends (op : TokenType) (lt rt : ResolvedType)
    (s : CheckerState) : ErrsExtend s (checkBinaryOp op lt rt s).2 := by
  unfold checkBinaryOp
  repeat' split
  all_goals first
    | exact ErrsExtend.rfl _
    | exact ErrsExtend.push _ _

theorem checkUnaryOp_extends (op : TokenType) (ot : ResolvedType)
    (s : CheckerState) : ErrsExtend s (checkUnaryOp op ot s).2 := by
  unfold checkUnaryOp
  repeat' split
  all_goals first
    | exact ErrsExtend.rfl _
    | exact ErrsExtend.push _ _

theorem checkAssignmentCompatibility_extends (tt vt : ResolvedType)
    (s : CheckerState) : ErrsExtend s (checkAssignmentCompatibility tt vt s).2 := by
  unfold checkAssignmentCompatibility
  split
  · exact ErrsExtend.rfl _
  · exact ErrsExtend.push _ _

theorem visitLiteralExpr_extends (tt : TokenType) (v : String) (s : CheckerState) :
    ErrsExtend s (visitLiteralExpr tt v s).2 := by
  unfold visitLiteralExpr
  repeat' split
  all_goals first
    | exact ErrsExtend.rfl _
    | exact ErrsExtend.push _ _

theorem visitIdentifierExpr_extends (n : String) (s : CheckerState) :
    ErrsExtend s (visitIdentifierExpr n s).2 := by
  unfold visitIdentifierExpr
  repeat' split
  all_goals first
    | exact ErrsExtend.rfl _
    | exact ErrsExtend.push _ _

theorem visitThisExpr_extends (s : CheckerState) :
    ErrsExtend s (visitThisExpr s).2 := by
  unfold visitThisExpr
  split
  · exact ErrsExtend.push _ _
  · exact ErrsExtend.rfl _

theorem visitPrimitiveType_extends (tt : TokenType) (s : CheckerState) :
    ErrsExtend s (visitPrimitiveType tt s).2 := by
  unfold visitPrimitiveType
  repeat' split
  all_goals first
    | exact ErrsExtend.rfl _
    | exact ErrsExtend.push _ _

theorem visitNamedType_extends (n : String) (s : CheckerState) :
    ErrsExtend s (visitNamedType n s).2 := by
  unfold visitNamedType
  repeat' split
  all_goals first
    | exact ErrsExtend.rfl _
    | exact ErrsExtend.push _ _

theorem visitQualifiedType_extends (qs : List String) (s : CheckerState) :
    ErrsExtend s (visitQualifiedType qs s).2 := by
  unfold visitQualifiedType
  repeat' split
  all_goals first
    | exact ErrsExtend.rfl _
    | exact ErrsExtend.push _ _


set_option maxHeartbeats 1000000 in
/-- Every checker function only appends diagnostics. -/
theorem checker_errs_extend : ∀ fuel : Nat,
    (∀ e s, ErrsExtend s (visitExpr fuel e s).2) ∧
    (∀ es s, ErrsExtend s (visitArrayLiteral fuel es s).2) ∧
    (∀ t es s, ErrsExtend s (arrayElementsCheckLoop fuel t es s).2) ∧
    (∀ ct args ta s, ErrsExtend s (checkFunctionCall fuel ct args ta s).2) ∧
    (∀ ps s, ErrsExtend s (callArgsCheckLoop fuel ps s)) ∧
    (∀ ty s, ErrsExtend s (visitType fuel ty s).2) ∧
    (∀ v s, ErrsExtend s (visitVarDecl fuel v s).2) ∧
    (∀ p s, ErrsExtend s (visitParameter fuel p s).2) ∧
    (∀ ps acc s, ErrsExtend s (paramTypesLoop fuel ps acc s).2) ∧
    (∀ ps s, ErrsExtend s (declareParamsLoop fuel ps s)) ∧
    (∀ n ps rt b s, ErrsExtend s (visitFuncDecl fuel n ps rt b s).2) ∧
    (∀ st s, ErrsExtend s (visitStmt fuel st s).2) ∧
    (∀ sts s, ErrsExtend s (visitBlock fuel sts s).2) ∧
    (∀ sts s, ErrsExtend s (blockStmtsLoop fuel sts s)) ∧
    (∀ d s, ErrsExtend s (visitDeclarationStmt fuel d s).2) := by
  intro fuel
  induction fuel with
  | zero =>
    refine ⟨?_, ?_, ?_, ?_, ?_, ?_, ?_, ?_, ?_, ?_, ?_, ?_, ?_, ?_, ?_⟩ <;>
      intros <;> exact ErrsExtend.push _ _
  | succ fuel ih =>
    obtain ⟨ihE, ihAL, ihAEL, ihCFC, ihCAL, ihT, ihVD, ihP, ihPTL, ihDPL,
      ihFD, ihS, ihB, ihBL, ihDS⟩ := ih
    have hExpr : ∀ e s, ErrsExtend s (visitExpr (fuel + 1) e s).2 := by
      intro e s
      cases e with
      | BinaryExpression op l r =>
        simp only [visitExpr]
        rcases h1 : visitExpr fuel l s with ⟨lt, s1⟩
        rcases h2 : visitExpr fuel r s1 with ⟨rt, s2⟩
        simp only [h1, h2]
        exact ((extendSnd h1 (ihE l s)).trans (extendSnd h2 (ihE r s1))).trans
          (checkBinaryOp_extends op lt rt s2)
      | UnaryExpression op operand pf =>
        simp only [visitExpr]
        rcases h1 : visitExpr fuel operand s with ⟨ot, s1⟩
        simp only [h1]
        exact (extendSnd h1 (ihE operand s)).trans (checkUnaryOp_extends op ot s1)
      | LiteralExpression tt v =>
        simp only [visitExpr]
        exact visitLiteralExpr_extends tt v s
      | IdentifierExpression n =>
        simp only [visitExpr]
        exact visitIdentifierExpr_extends n s
      | CallExpression callee args typeArgs =>
        simp only [visitExpr]
        rcases h1 : visitExpr fuel callee s with ⟨ct, s1⟩
        simp only [h1]
        have e1 := extendSnd h1 (ihE callee s)
        split
        · exact e1.trans (ErrsExtend.push _ _)
        · exact e1.trans (ihCFC ct args typeArgs s1)
      | AssignmentExpression op target value =>
        simp only [visitExpr]
        rcases h1 : visitExpr fuel target s with ⟨tt, s1⟩
        rcases h2 : visitExpr fuel value s1 with ⟨vt, s2⟩
        simp only [h1, h2]
        have e2 := (extendSnd h1 (ihE target s)).trans (extendSnd h2 (ihE value s1))
        split
        · rcases h3 : checkAssignmentCompatibility tt vt s2 with ⟨ok, s3⟩
          simp only [h3]
          have e3 := e2.trans (extendSnd h3 (checkAssignmentCompatibility_extends tt vt s2))
          split
          · exact e3.trans (ErrsExtend.push _ _)
          · exact e3
        · split
          · exact e2.trans (ErrsExtend.push _ _)
          · rename_i binaryOp _
            rcases h3 : checkBinaryOp binaryOp tt vt s2 with ⟨res, s3⟩
            simp only [h3]
            have e3 := e2.trans (extendSnd h3 (checkBinaryOp_extends binaryOp tt vt s2))
            split
            · exact e3.trans (ErrsExtend.push _ _)
            · exact e3
      | MemberExpression obj member isPtr =>
        simp only [visitExpr]
        rcases h1 : visitExpr fuel obj s with ⟨ot, s1⟩
        simp only [h1]
        exact (extendSnd h1 (ihE obj s)).trans (ErrsExtend.push _ _)
      | IndexExpression arr idx =>
        simp only [visitExpr]
        rcases h1 : visitExpr fuel arr s with ⟨at1, s1⟩
        rcases h2 : visitExpr fuel idx s1 with ⟨it, s2⟩
        simp only [h1, h2]
        have e2 := (extendSnd h1 (ihE arr s)).trans (extendSnd h2 (ihE idx s1))
        split
        · exact e2.trans (ErrsExtend.push _ _)
        · split
          · exact e2.trans (ErrsExtend.push _ _)
          · exact e2
      | ArrayLiteral elements =>
        simp only [visitExpr]
        exact ihAL elements s
      | ThisExpression =>
        simp only [visitExpr]
        exact visitThisExpr_extends s
    have hAL : ∀ es s, ErrsExtend s (visitArrayLiteral (fuel + 1) es s).2 := by
      intro es s
      cases es with
      | nil => exact ErrsExtend.push _ _
      | cons e0 rest =>
        simp only [visitArrayLiteral]
        rcases h1 : visitExpr fuel e0 s with ⟨et, s1⟩
        simp only [h1]
        exact (extendSnd h1 (ihE e0 s)).trans (ihAEL et rest s1)
    have hAEL : ∀ t es s, ErrsExtend s (arrayElementsCheckLoop (fuel + 1) t es s).2 := by
      intro t es s
      cases es with
      | nil => exact ErrsExtend.rfl _
      | cons e rest =>
        simp only [arrayElementsCheckLoop]
        rcases h1 : visitExpr fuel e s with ⟨nt, s1⟩
        simp only [h1]
        have e1 := extendSnd h1 (ihE e s)
        split
        · exact e1.trans (ErrsExtend.push _ _)
        · exact e1.trans (ihAEL t rest s1)
    have hCFC : ∀ ct args ta s, ErrsExtend s (checkFunctionCall (fuel + 1) ct args ta s).2 := by
      intro ct args ta s
      simp only [checkFunctionCall]
      split
      · exact ErrsExtend.push _ _
      · split
        · exact ErrsExtend.push _ _
        · exact ihCAL (args.zip ct.getParameterTypes) s
    have hCAL : ∀ ps s, ErrsExtend s (callArgsCheckLoop (fuel + 1) ps s) := by
      intro ps s
      cases ps with
      | nil => exact ErrsExtend.rfl _
      | cons pair rest =>
        obtain ⟨arg, pt⟩ := pair
        simp only [callArgsCheckLoop]
        rcases h1 : visitExpr fuel arg s with ⟨at1, s1⟩
        simp only [h1]
        have e1 := extendSnd h1 (ihE arg s)
        split
        · exact (e1.trans (ErrsExtend.push _ _)).trans (ihCAL rest _)
        · exact e1.trans (ihCAL rest _)
    have hT : ∀ ty s, ErrsExtend s (visitType (fuel + 1) ty s).2 := by
      intro ty s
      cases ty with
      | PrimitiveType tt =>
        simp only [visitType]
        exact visitPrimitiveType_extends tt s
      | NamedType n =>
        simp only [visitType]
        exact visitNamedType_extends n s
      | QualifiedType qs =>
        simp only [visitType]
        exact visitQualifiedType_extends qs s
      | ArrayType elem size? =>
        simp only [visitType]
        rcases h1 : visitType fuel elem s with ⟨et, s1⟩
        simp only [h1]
        have e1 := extendSnd h1 (ihT elem s)
        cases size? with
        | none => exact e1
        | some sizeExpr =>
          simp only []
          rcases h2 : visitExpr fuel sizeExpr s1 with ⟨st2, s2⟩
          simp only [h2]
          have e2 := e1.trans (extendSnd h2 (ihE sizeExpr s1))
          split
          · exact e2.trans (ErrsExtend.push _ _)
          · exact e2
      | PointerType base kind =>
        simp only [visitType]
        rcases h1 : visitType fuel base s with ⟨pt, s1⟩
        simp only [h1]
        exact extendSnd h1 (ihT base s)
      | ReferenceType base =>
        simp only [visitType]
        rcases h1 : visitType fuel base s with ⟨bt, s1⟩
        simp only [h1]
        exact extendSnd h1 (ihT base s)
      | UnionType l r =>
        simp only [visitType]
        rcases h1 : visitType fuel l s with ⟨lt, s1⟩
        rcases h2 : visitType fuel r s1 with ⟨rt, s2⟩
        simp only [h1, h2]
        exact (extendSnd h1 (ihT l s)).trans (extendSnd h2 (ihT r s1))
    have hVD : ∀ v s, ErrsExtend s (visitVarDecl (fuel + 1) v s).2 := by
      intro v s
      obtain ⟨name, ty?, init?, sc, isC⟩ := v
      simp only [visitVarDecl]
      cases init? with
      | none =>
        simp only []
        cases ty? with
        | none => exact ErrsExtend.push _ _
        | some ty =>
          rcases h1 : visitType fuel ty s with ⟨dt, s1⟩
          simp only [h1]
          exact (extendSnd h1 (ihT ty s)).trans
            (ErrsExtend.teq (declareVariable_errors s1 name dt))
      | some init =>
        simp only []
        rcases h1 : visitExpr fuel init s with ⟨it, s1⟩
        simp only [h1]
        have e1 := extendSnd h1 (ihE init s)
        cases ty? with
        | none =>
          simp only []
          exact e1.trans (ErrsExtend.teq (declareVariable_errors s1 name it))
        | some ty =>
          simp only []
          rcases h2 : visitType fuel ty s1 with ⟨dt, s2⟩
          simp only [h2]
          have e2 := e1.trans (extendSnd h2 (ihT ty s1))
          rcases h3 : checkAssignmentCompatibility dt it s2 with ⟨ok, s3⟩
          simp only [h3]
          have e3 := e2.trans (extendSnd h3 (checkAssignmentCompatibility_extends dt it s2))
          split
          · exact e3.trans (ErrsExtend.push _ _)
          · exact e3.trans (ErrsExtend.teq (declareVariable_errors s3 name dt))
    have hP : ∀ p s, ErrsExtend s (visitParameter (fuel + 1) p s).2 := by
      intro p s
      obtain ⟨pname, pty, pdef, pref, pconst⟩ := p
      simp only [visitParameter]
      rcases h1 : visitType fuel pty s with ⟨pt, s1⟩
      simp only [h1]
      have e1 := extendSnd h1 (ihT pty s)
      cases pdef with
      | none => exact e1
      | some dv =>
        simp only []
        rcases h2 : visitExpr fuel dv s1 with ⟨dt, s2⟩
        simp only [h2]
        have e2 := e1.trans (extendSnd h2 (ihE dv s1))
        rcases h3 : checkAssignmentCompatibility _ dt s2 with ⟨ok, s3⟩
        simp only [h3]
        have e3 := e2.trans (extendSnd h3 (checkAssignmentCompatibility_extends _ dt s2))
        split
        · exact e3.trans (ErrsExtend.push _ _)
        · exact e3
    have hPTL : ∀ ps acc s, ErrsExtend s (paramTypesLoop (fuel + 1) ps acc s).2 := by
      intro ps acc s
      cases ps with
      | nil => exact ErrsExtend.rfl _
      | cons p rest =>
        simp only [paramTypesLoop]
        rcases h1 : visitParameter fuel p s with ⟨pt, s1⟩
        simp only [h1]
        exact (extendSnd h1 (ihP p s)).trans (ihPTL rest _ s1)
    have hDPL : ∀ ps s, ErrsExtend s (declareParamsLoop (fuel + 1) ps s) := by
      intro ps s
      cases ps with
      | nil => exact ErrsExtend.rfl _
      | cons p rest =>
        simp only [declareParamsLoop]
        rcases h1 : visitParameter fuel p s with ⟨pt, s1⟩
        simp only [h1]
        exact ((extendSnd h1 (ihP p s)).trans
          (ErrsExtend.teq (declareVariable_errors s1 p.name pt))).trans
          (ihDPL rest _)
    have hTail : ∀ (s1 : CheckerState) (retT : ResolvedType) (n : String)
        (ps : List ParameterNode) (b : Option (List Statement)), ErrsExtend s1
          (let (paramTypes, s) := paramTypesLoop fuel ps [] s1
           let functionType := ResolvedType.Function retT paramTypes
           let s := declareFunction s n functionType
           let s := enterFunctionScope s retT
           let s := declareParamsLoop fuel ps s
           let s := match b with
             | some body => (visitBlock fuel body s).2
             | none => s
           let s := exitFunctionScope s
           ((functionType : ResolvedType), s)).2 := by
      intro s1 retT n ps b
      rcases h2 : paramTypesLoop fuel ps [] s1 with ⟨pts, s2⟩
      simp only [h2]
      have e2 := extendSnd h2 (ihPTL ps [] s1)
      have e3 := e2.trans
        (ErrsExtend.teq (declareFunction_errors s2 n (ResolvedType.Function retT pts)))
      have e4 := e3.trans
        (ErrsExtend.teq (rfl : (enterFunctionScope (declareFunction s2 n
          (ResolvedType.Function retT pts)) retT).errors = _))
      have e5 := e4.trans (ihDPL ps _)
      cases b with
      | none => exact e5.trans (ErrsExtend.teq rfl)
      | some body =>
        simp only []
        exact (e5.trans (ihB body _)).trans (ErrsExtend.teq rfl)
    have hFD : ∀ n ps rt b s, ErrsExtend s (visitFuncDecl (fuel + 1) n ps rt b s).2 := by
      intro n ps rt b s
      cases rt with
      | none =>
        simp only [visitFuncDecl]
        exact hTail s .Void n ps b
      | some rtt =>
        simp only [visitFuncDecl]
        rcases h1 : visitType fuel rtt s with ⟨retT, s1⟩
        simp only [h1]
        exact (extendSnd h1 (ihT rtt s)).trans (hTail s1 retT n ps b)
    have hB : ∀ sts s, ErrsExtend s (visitBlock (fuel + 1) sts s).2 := by
      intro sts s
      simp only [visitBlock]
      exact ((ErrsExtend.teq (rfl : (enterScope s).errors = s.errors)).trans
        (ihBL sts (enterScope s))).trans (ErrsExtend.teq rfl)
    have hBL : ∀ sts s, ErrsExtend s (blockStmtsLoop (fuel + 1) sts s) := by
      intro sts s
      cases sts with
      | nil => exact ErrsExtend.rfl _
      | cons st rest =>
        simp only [blockStmtsLoop]
        rcases h1 : visitStmt fuel st s with ⟨t1, s1⟩
        simp only [h1]
        exact (extendSnd h1 (ihS st s)).trans (ihBL rest s1)
    have hDS : ∀ d s, ErrsExtend s (visitDeclarationStmt (fuel + 1) d s).2 := by
      intro d s
      cases d with
      | VarDecl v =>
        simp only [visitDeclarationStmt]
        exact ihVD v s
      | FunctionDecl n ps rt b =>
        simp only [visitDeclarationStmt]
        exact ihFD n ps rt b s
    have hS : ∀ st s, ErrsExtend s (visitStmt (fuel + 1) st s).2 := by
      intro st s
      cases st with
      | ExpressionStmt e =>
        simp only [visitStmt]
        rcases h1 : visitExpr fuel e s with ⟨t1, s1⟩
        simp only [h1]
        exact extendSnd h1 (ihE e s)
      | Block stmts =>
        simp only [visitStmt]
        exact ihB stmts s
      | BreakStmt =>
        simp only [visitStmt]
        split
        · exact ErrsExtend.push _ _
        · exact ErrsExtend.rfl _
      | ContinueStmt =>
        simp only [visitStmt]
        split
        · exact ErrsExtend.push _ _
        · exact ErrsExtend.rfl _
      | DeclarationStmt d =>
        simp only [visitStmt]
        exact ihDS d s
    exact ⟨hExpr, hAL, hAEL, hCFC, hCAL, hT, hVD, hP, hPTL, hDPL, hFD, hS, hB, hBL, hDS⟩

end Tspp

namespace Tspp

theorem visitExpr_extends (fuel : Nat) (e : Expression) (s : CheckerState) :
    ErrsExtend s (visitExpr fuel e s).2 := (checker_errs_extend fuel).1 e s

theorem visitArrayLiteral_extends (fuel : Nat) (es : List Expression) (s : CheckerState) :
    ErrsExtend s (visitArrayLiteral fuel es s).2 := (checker_errs_extend fuel).2.1 es s

theorem arrayElementsCheckLoop_extends (fuel : Nat) (t : ResolvedType)
    (es : List Expression) (s : CheckerState) :
    ErrsExtend s (arrayElementsCheckLoop fuel t es s).2 :=
  (checker_errs_extend fuel).2.2.1 t es s

theorem checkFunctionCall_extends (fuel : Nat) (ct : ResolvedType)
    (args : List Expression) (ta : List String) (s : CheckerState) :
    ErrsExtend s (checkFunctionCall fuel ct args ta s).2 :=
  (checker_errs_extend fuel).2.2.2.1 ct args ta s

theorem callArgsCheckLoop_extends (fuel : Nat) (ps : List (Expression × ResolvedType))
    (s : CheckerState) : ErrsExtend s (callArgsCheckLoop fuel ps s) :=
  (checker_errs_extend fuel).2.2.2.2.1 ps s

theorem visitType_extends (fuel : Nat) (ty : TypeNode) (s : CheckerState) :
    ErrsExtend s (visitType fuel ty s).2 := (checker_errs_extend fuel).2.2.2.2.2.1 ty s

theorem visitVarDecl_extends (fuel : Nat) (v : VarDeclNode) (s : CheckerState) :
    ErrsExtend s (visitVarDecl fuel v s).2 :=
  (checker_errs_extend fuel).2.2.2.2.2.2.1 v s

theorem visitParameter_extends (fuel : Nat) (p : ParameterNode) (s : CheckerState) :
    ErrsExtend s (visitParameter fuel p s).2 :=
  (checker_errs_extend fuel).2.2.2.2.2.2.2.1 p s

theorem paramTypesLoop_extends (fuel : Nat) (ps : List ParameterNode)
    (acc : List ResolvedType) (s : CheckerState) :
    ErrsExtend s (paramTypesLoop fuel ps acc s).2 :=
  (checker_errs_extend fuel).2.2.2.2.2.2.2.2.1 ps acc s

theorem declareParamsLoop_extends (fuel : Nat) (ps : List ParameterNode)
    (s : CheckerState) : ErrsExtend s (declareParamsLoop fuel ps s) :=
  (checker_errs_extend fuel).2.2.2.2.2.2.2.2.2.1 ps s

theorem visitFuncDecl_extends (fuel : Nat) (n : String) (ps : List ParameterNode)
    (rt : Option TypeNode) (b : Option (List Statement)) (s : CheckerState) :
    ErrsExtend s (visitFuncDecl fuel n ps rt b s).2 :=
  (checker_errs_extend fuel).2.2.2.2.2.2.2.2.2.2.1 n ps rt b s

theorem visitStmt_extends (fuel : Nat) (st : Statement) (s : CheckerState) :
    ErrsExtend s (visitStmt fuel st s).2 :=
  (checker_errs_extend fuel).2.2.2.2.2.2.2.2.2.2.2.1 st s

theorem visitBlock_extends (fuel : Nat) (sts : List Statement) (s : CheckerState) :
    ErrsExtend s (visitBlock fuel sts s).2 :=
  (checker_errs_extend fuel).2.2.2.2.2.2.2.2.2.2.2.2.1 sts s

theorem blockStmtsLoop_extends (fuel : Nat) (sts : List Statement) (s : CheckerState) :
    ErrsExtend s (blockStmtsLoop fuel sts s) :=
  (checker_errs_extend fuel).2.2.2.2.2.2.2.2.2.2.2.2.2.1 sts s

theorem visitDeclarationStmt_extends (fuel : Nat) (d : DeclNode) (s : CheckerState) :
    ErrsExtend s (visitDeclarationStmt fuel d s).2 :=
  (checker_errs_extend fuel).2.2.2.2.2.2.2.2.2.2.2.2.2.2 d s

mutual

/-- A resolved type that contains the Error kind nowhere. -/
def TypeClean : ResolvedType → Boolean
  | .Void => true
  | .Int => true
  | .Float => true
  | .Bool => true
  | .String => true
  | .Named _ => true
  | .Array e => TypeClean e
  | .Pointer p _ => TypeClean p
  | .Reference p => TypeClean p
  | .Function r ps => TypeClean r && TypeCleanList ps
  | .Smart p _ => TypeClean p
  | .Union l r => TypeClean l && TypeClean r
  | .Template _ as => TypeCleanList as
  | .Error => false

/-- All members of a type list are clean. -/
def TypeCleanList : List ResolvedType → Boolean
  | [] => true
  | t :: ts => TypeClean t && TypeCleanList ts

end

/-- Every type bound in the frame is clean. -/
def FrameClean (f : Frame) : Prop :=
  (∀ p ∈ f.variables_, TypeClean p.2 = true) ∧
  (∀ p ∈ f.functions_, TypeClean p.2 = true) ∧
  (∀ p ∈ f.types_, TypeClean p.2 = true)

/-- Every binding reachable from the checker state is clean. -/
def CleanState (s : CheckerState) : Prop :=
  (∀ f ∈ s.scopes, FrameClean f) ∧
  (∀ t, s.currentClassType = some t → TypeClean t = true)

/-- Either an error has already been reported, or the state is clean. -/
def GoodState (s : CheckerState) : Prop := s.errors ≠ [] ∨ CleanState s

/-- Either an error has been reported, or the state is clean and the
computed type is clean. -/
def GoodTyped (p : ResolvedType × CheckerState) : Prop :=
  p.2.errors ≠ [] ∨ (CleanState p.2 ∧ TypeClean p.1 = true)

/-- Either an error has been reported, or the state is clean and every
collected type is clean. -/
def GoodListRes (p : List ResolvedType × CheckerState) : Prop :=
  p.2.errors ≠ [] ∨ (CleanState p.2 ∧ ∀ t ∈ p.1, TypeClean t = true)

theorem tcError_ne_nil (s : CheckerState) (m : String) : (tcError s m).errors ≠ [] := by
  simp [tcError]

theorem GoodTyped.ofTcError {t : ResolvedType} (s : CheckerState) (m : String) :
    GoodTyped (t, tcError s m) := Or.inl (tcError_ne_nil s m)

theorem GoodTyped.state {p : ResolvedType × CheckerState} (h : GoodTyped p) :
    GoodState p.2 := by
  rcases h with h | ⟨hc, _⟩
  · exact Or.inl h
  · exact Or.inr hc

theorem GoodState.absorb {s s' : CheckerState} (h : s.errors ≠ [])
    (he : ErrsExtend s s') : s'.errors ≠ [] := he.ne_nil h

theorem CleanState.enter {s : CheckerState} (h : CleanState s) :
    CleanState (enterScope s) := by
  obtain ⟨h1, h2⟩ := h
  refine ⟨?_, h2⟩
  intro f hf
  rcases List.mem_cons.mp hf with rfl | hf
  · exact ⟨by simp [emptyFrame], by simp [emptyFrame], by simp [emptyFrame]⟩
  · exact h1 f hf

theorem CleanState.exit {s : CheckerState} (h : CleanState s) :
    CleanState (exitScope s) := CleanState.enter h

theorem CleanState.enterFn {s : CheckerState} (h : CleanState s) (rt : ResolvedType) :
    CleanState (enterFunctionScope s rt) := by
  obtain ⟨h1, h2⟩ := (CleanState.enter h)
  exact ⟨h1, h2⟩

theorem CleanState.exitFn {s : CheckerState} (h : CleanState s) :
    CleanState (exitFunctionScope s) := by
  have h' : CleanState { s with currentFunctionReturnType := none } := ⟨h.1, h.2⟩
  exact CleanState.exit h'

theorem CleanState.declareVar {s : CheckerState} (h : CleanState s)
    (n : String) {t : ResolvedType} (ht : TypeClean t = true) :
    CleanState (declareVariable s n t) := by
  obtain ⟨h1, h2⟩ := h
  unfold declareVariable
  split
  · exact ⟨h1, h2⟩
  · rename_i f rest heq
    constructor
    · intro g hg
      rcases List.mem_cons.mp hg with rfl | hg
      · have hf := h1 f (by rw [heq]; exact List.mem_cons_self f rest)
        obtain ⟨hv, hfn, hty⟩ := hf
        refine ⟨?_, hfn, hty⟩
        intro p hp
        rcases List.mem_cons.mp hp with rfl | hp
        · exact ht
        · exact hv p hp
      · exact h1 g (by rw [heq]; exact List.mem_cons_of_mem f hg)
    · exact h2

theorem CleanState.declareFn {s : CheckerState} (h : CleanState s)
    (n : String) {t : ResolvedType} (ht : TypeClean t = true) :
    CleanState (declareFunction s n t) := by
  obtain ⟨h1, h2⟩ := h
  unfold declareFunction
  split
  · exact ⟨h1, h2⟩
  · rename_i f rest heq
    constructor
    · intro g hg
      rcases List.mem_cons.mp hg with rfl | hg
      · have hf := h1 f (by rw [heq]; exact List.mem_cons_self f rest)
        obtain ⟨hv, hfn, hty⟩ := hf
        refine ⟨hv, ?_, hty⟩
        intro p hp
        rcases List.mem_cons.mp hp with rfl | hp
        · exact ht
        · exact hfn p hp
      · exact h1 g (by rw [heq]; exact List.mem_cons_of_mem f hg)
    · exact h2

theorem lookupIn_clean {m : List (String × ResolvedType)} {n : String}
    {t : ResolvedType} (hm : ∀ p ∈ m, TypeClean p.2 = true)
    (h : lookupIn m n = some t) : TypeClean t = true := by
  induction m with
  | nil => simp [lookupIn] at h
  | cons p rest ih =>
    obtain ⟨k, v⟩ := p
    simp only [lookupIn] at h
    split at h
    · obtain rfl : v = t := by simpa using h
      exact hm (k, v) (List.mem_cons_self _ _)
    · exact ih (fun q hq => hm q (List.mem_cons_of_mem _ hq)) h

theorem lookupVariable_clean {fs : List Frame} {n : String} {t : ResolvedType}
    (hfs : ∀ f ∈ fs, FrameClean f) (h : lookupVariable fs n = some t) :
    TypeClean t = true := by
  induction fs with
  | nil => simp [lookupVariable] at h
  | cons f rest ih =>
    simp only [lookupVariable] at h
    rcases hl : lookupIn f.variables_ n with _ | v
    · rw [hl] at h
      exact ih (fun g hg => hfs g (List.mem_cons_of_mem _ hg)) h
    · rw [hl] at h
      obtain rfl : v = t := by simpa using h
      exact lookupIn_clean (hfs f (List.mem_cons_self _ _)).1 hl

theorem lookupFunction_clean {fs : List Frame} {n : String} {t : ResolvedType}
    (hfs : ∀ f ∈ fs, FrameClean f) (h : lookupFunction fs n = some t) :
    TypeClean t = true := by
  induction fs with
  | nil => simp [lookupFunction] at h
  | cons f rest ih =>
    simp only [lookupFunction] at h
    rcases hl : lookupIn f.functions_ n with _ | v
    · rw [hl] at h
      exact ih (fun g hg => hfs g (List.mem_cons_of_mem _ hg)) h
    · rw [hl] at h
      obtain rfl : v = t := by simpa using h
      exact lookupIn_clean (hfs f (List.mem_cons_self _ _)).2.1 hl

theorem lookupType_clean {fs : List Frame} {n : String} {t : ResolvedType}
    (hfs : ∀ f ∈ fs, FrameClean f) (h : lookupType fs n = some t) :
    TypeClean t = true := by
  induction fs with
  | nil => simp [lookupType] at h
  | cons f rest ih =>
    simp only [lookupType] at h
    rcases hl : lookupIn f.types_ n with _ | v
    · rw [hl] at h
      exact ih (fun g hg => hfs g (List.mem_cons_of_mem _ hg)) h
    · rw [hl] at h
      obtain rfl : v = t := by simpa using h
      exact lookupIn_clean (hfs f (List.mem_cons_self _ _)).2.2 hl

theorem TypeCleanList_mem {ts : List ResolvedType} (h : TypeCleanList ts = true) :
    ∀ t ∈ ts, TypeClean t = true := by
  induction ts with
  | nil => simp
  | cons t rest ih =>
    simp only [TypeCleanList, Bool.and_eq_true] at h
    intro u hu
    rcases List.mem_cons.mp hu with rfl | hu
    · exact h.1
    · exact ih h.2 u hu

theorem TypeClean_not_error {t : ResolvedType} (h : TypeClean t = true) :
    t.getKind ≠ .Error := by
  cases t <;> simp [ResolvedType.getKind, TypeClean] at h ⊢

end Tspp

namespace Tspp

theorem checkBinaryOp_good (op : TokenType) (lt rt : ResolvedType) {s : CheckerState}
    (hg : GoodState s) : GoodTyped (checkBinaryOp op lt rt s) := by
  rcases hg with he | hc
  · exact Or.inl (GoodState.absorb he (checkBinaryOp_extends op lt rt s))
  · unfold checkBinaryOp
    repeat' split
    all_goals first
      | exact Or.inl (tcError_ne_nil _ _)
      | exact Or.inr ⟨hc, by simp [TypeClean]⟩

theorem checkUnaryOp_good (op : TokenType) {ot : ResolvedType} {s : CheckerState}
    (hg : GoodTyped (ot, s)) : GoodTyped (checkUnaryOp op ot s) := by
  rcases hg with he | ⟨hc, hcl⟩
  · exact Or.inl (GoodState.absorb he (checkUnaryOp_extends op ot s))
  · have cBool : TypeClean ResolvedType.Bool = true := by simp [TypeClean]
    have cInt : TypeClean ResolvedType.Int = true := by simp [TypeClean]
    unfold checkUnaryOp
    repeat' split
    all_goals first
      | exact Or.inl (tcError_ne_nil _ _)
      | exact Or.inr ⟨hc, hcl⟩
      | exact Or.inr ⟨hc, cBool⟩
      | exact Or.inr ⟨hc, cInt⟩
      | (simp only [TypeClean] at hcl; exact Or.inr ⟨hc, hcl⟩)
      | (refine Or.inr ⟨hc, ?_⟩; simpa [TypeClean] using hcl)

theorem checkAssignmentCompatibility_good (tt vt : ResolvedType) {s : CheckerState}
    (hg : GoodState s) : GoodState (checkAssignmentCompatibility tt vt s).2 := by
  unfold checkAssignmentCompatibility
  split
  · exact hg
  · exact Or.inl (tcError_ne_nil _ _)

theorem visitLiteralExpr_good (tt : TokenType) (v : String) {s : CheckerState}
    (hg : GoodState s) : GoodTyped (visitLiteralExpr tt v s) := by
  rcases hg with he | hc
  · exact Or.inl (GoodState.absorb he (visitLiteralExpr_extends tt v s))
  · unfold visitLiteralExpr
    repeat' split
    all_goals first
      | exact Or.inl (tcError_ne_nil _ _)
      | exact Or.inr ⟨hc, by simp [TypeClean]⟩

theorem visitIdentifierExpr_good (n : String) {s : CheckerState} (hg : GoodState s) :
    GoodTyped (visitIdentifierExpr n s) := by
  rcases hg with he | hc
  · exact Or.inl (GoodState.absorb he (visitIdentifierExpr_extends n s))
  · unfold visitIdentifierExpr
    rcases h1 : lookupVariable s.scopes n with _ | t
    · rcases h2 : lookupFunction s.scopes n with _ | t
      · exact Or.inl (tcError_ne_nil _ _)
      · exact Or.inr ⟨hc, lookupFunction_clean hc.1 h2⟩
    · exact Or.inr ⟨hc, lookupVariable_clean hc.1 h1⟩

theorem visitThisExpr_good {s : CheckerState} (hg : GoodState s) :
    GoodTyped (visitThisExpr s) := by
  rcases hg with he | hc
  · exact Or.inl (GoodState.absorb he (visitThisExpr_extends s))
  · unfold visitThisExpr
    rcases h1 : s.currentClassType with _ | t
    · exact Or.inl (tcError_ne_nil _ _)
    · exact Or.inr ⟨hc, hc.2 t h1⟩

theorem visitPrimitiveType_good (tt : TokenType) {s : CheckerState}
    (hg : GoodState s) : GoodTyped (visitPrimitiveType tt s) := by
  rcases hg with he | hc
  · exact Or.inl (GoodState.absorb he (visitPrimitiveType_extends tt s))
  · unfold visitPrimitiveType
    repeat' split
    all_goals first
      | exact Or.inl (tcError_ne_nil _ _)
      | exact Or.inr ⟨hc, by simp [TypeClean]⟩

theorem visitNamedType_good (n : String) {s : CheckerState} (hg : GoodState s) :
    GoodTyped (visitNamedType n s) := by
  rcases hg with he | hc
  · exact Or.inl (GoodState.absorb he (visitNamedType_extends n s))
  · unfold visitNamedType
    rcases h1 : lookupType s.scopes n with _ | t
    · exact Or.inl (tcError_ne_nil _ _)
    · exact Or.inr ⟨hc, lookupType_clean hc.1 h1⟩

theorem visitQualifiedType_good (qs : List String) {s : CheckerState}
    (hg : GoodState s) : GoodTyped (visitQualifiedType qs s) := by
  rcases hg with he | hc
  · exact Or.inl (GoodState.absorb he (visitQualifiedType_extends qs s))
  · unfold visitQualifiedType
    rcases h1 : qs.getLast? with _ | last
    · exact Or.inl (tcError_ne_nil _ _)
    · show GoodTyped (match lookupType s.scopes last with
        | some t => (t, s)
        | none => (ResolvedType.Error, tcError s "Undefined qualified type"))
      rcases h2 : lookupType s.scopes last with _ | t
      · exact Or.inl (tcError_ne_nil _ _)
      · exact Or.inr ⟨hc, lookupType_clean hc.1 h2⟩

end Tspp

namespace Tspp

theorem TypeCleanList_of_mem {ts : List ResolvedType}
    (h : ∀ t ∈ ts, TypeClean t = true) : TypeCleanList ts = true := by
  induction ts with
  | nil => rfl
  | cons t rest ih =>
    simp only [TypeCleanList, Bool.and_eq_true]
    exact ⟨h t (List.mem_cons_self _ _),
      ih (fun u hu => h u (List.mem_cons_of_mem _ hu))⟩

theorem TypeClean_getReturnType {t : ResolvedType} (h : TypeClean t = true)
    (hk : t.getKind = .Function) : TypeClean t.getReturnType = true := by
  cases t <;>
    simp_all [ResolvedType.getKind, ResolvedType.getReturnType, TypeClean]

theorem TypeClean_getElementType {t : ResolvedType} (h : TypeClean t = true)
    (hk : t.getKind = .Array) : TypeClean t.getElementType = true := by
  cases t <;>
    simp_all [ResolvedType.getKind, ResolvedType.getElementType, TypeClean]

theorem GoodTyped.mk {t : ResolvedType} {s : CheckerState} (hg : GoodState s)
    (ht : TypeClean t = true) : GoodTyped (t, s) := by
  rcases hg with he | hc
  · exact Or.inl he
  · exact Or.inr ⟨hc, ht⟩

theorem GoodListRes.toGoodState {p : List ResolvedType × CheckerState}
    (h : GoodListRes p) : GoodState p.2 := by
  rcases h with h | ⟨hc, _⟩
  · exact Or.inl h
  · exact Or.inr hc

theorem GoodListRes.nilOf {s : CheckerState} (h : GoodState s) :
    GoodListRes ([], s) := by
  rcases h with he | hc
  · exact Or.inl he
  · exact Or.inr ⟨hc, by simp⟩

theorem GoodState.enterS {s : CheckerState} (h : GoodState s) :
    GoodState (enterScope s) := by
  rcases h with he | hc
  · exact Or.inl he
  · exact Or.inr (CleanState.enter hc)

theorem GoodState.declareVarG {t : ResolvedType} {s : CheckerState} (n : String)
    (h : GoodTyped (t, s)) : GoodState (declareVariable s n t) := by
  rcases h with he | ⟨hc, hcl⟩
  · exact Or.inl (by rw [declareVariable_errors]; exact he)
  · exact Or.inr (CleanState.declareVar hc n hcl)

theorem GoodTyped.error_reported {t : ResolvedType} {s : CheckerState}
    (h : GoodTyped (t, s)) (hk : t.getKind = .Error) : s.errors ≠ [] := by
  rcases h with he | ⟨_, hcl⟩
  · exact he
  · exact absurd hk (TypeClean_not_error hcl)

end Tspp

namespace Tspp

set_option maxHeartbeats 1000000 in
theorem checker_good : ∀ fuel : Nat,
    (∀ e s, GoodState s → GoodTyped (visitExpr fuel e s)) ∧
    (∀ es s, GoodState s → GoodTyped (visitArrayLiteral fuel es s)) ∧
    (∀ t es s, GoodTyped (t, s) → GoodTyped (arrayElementsCheckLoop fuel t es s)) ∧
    (∀ ct args ta s, GoodTyped (ct, s) → GoodTyped (checkFunctionCall fuel ct args ta s)) ∧
    (∀ ps s, GoodState s → GoodState (callArgsCheckLoop fuel ps s)) ∧
    (∀ ty s, GoodState s → GoodTyped (visitType fuel ty s)) ∧
    (∀ v s, GoodState s → GoodTyped (visitVarDecl fuel v s)) ∧
    (∀ p s, GoodState s → GoodTyped (visitParameter fuel p s)) ∧
    (∀ ps acc s, GoodListRes (acc, s) → GoodListRes (paramTypesLoop fuel ps acc s)) ∧
    (∀ ps s, GoodState s → GoodState (declareParamsLoop fuel ps s)) ∧
    (∀ n ps rt b s, GoodState s → GoodTyped (visitFuncDecl fuel n ps rt b s)) ∧
    (∀ st s, GoodState s → GoodTyped (visitStmt fuel st s)) ∧
    (∀ sts s, GoodState s → GoodTyped (visitBlock fuel sts s)) ∧
    (∀ sts s, GoodState s → GoodState (blockStmtsLoop fuel sts s)) ∧
    (∀ d s, GoodState s → GoodTyped (visitDeclarationStmt fuel d s)) := by
  intro fuel
  induction fuel with
  | zero =>
    refine ⟨?_, ?_, ?_, ?_, ?_, ?_, ?_, ?_, ?_, ?_, ?_, ?_, ?_, ?_, ?_⟩ <;>
      intros <;> exact Or.inl (tcError_ne_nil _ _)
  | succ fuel ih =>
    obtain ⟨ihE, ihAL, ihAEL, ihCFC, ihCAL, ihT, ihVD, ihP, ihPTL, ihDPL,
      ihFD, ihS, ihB, ihBL, ihDS⟩ := ih
    have hExpr : ∀ e s, GoodState s → GoodTyped (visitExpr (fuel + 1) e s) := by
      intro e s hg
      cases e with
      | BinaryExpression op l r =>
        simp only [visitExpr]
        rcases h1 : visitExpr fuel l s with ⟨lt, s1⟩
        rcases h2 : visitExpr fuel r s1 with ⟨rt, s2⟩
        simp only [h1, h2]
        have g1 := ihE l s hg; rw [h1] at g1
        have g2 := ihE r s1 g1.state; rw [h2] at g2
        exact checkBinaryOp_good op lt rt g2.state
      | UnaryExpression op operand pf =>
        simp only [visitExpr]
        rcases h1 : visitExpr fuel operand s with ⟨ot, s1⟩
        simp only [h1]
        have g1 := ihE operand s hg; rw [h1] at g1
        exact checkUnaryOp_good op g1
      | LiteralExpression tt v =>
        simp only [visitExpr]
        exact visitLiteralExpr_good tt v hg
      | IdentifierExpression n =>
        simp only [visitExpr]
        exact visitIdentifierExpr_good n hg
      | CallExpression callee args typeArgs =>
        simp only [visitExpr]
        rcases h1 : visitExpr fuel callee s with ⟨ct, s1⟩
        simp only [h1]
        have g1 := ihE callee s hg; rw [h1] at g1
        split
        · exact Or.inl (tcError_ne_nil _ _)
        · exact ihCFC ct args typeArgs s1 g1
      | AssignmentExpression op target value =>
        simp only [visitExpr]
        rcases h1 : visitExpr fuel target s with ⟨tt, s1⟩
        rcases h2 : visitExpr fuel value s1 with ⟨vt, s2⟩
        simp only [h1, h2]
        have g1 := ihE target s hg; rw [h1] at g1
        have g2 := ihE value s1 g1.state; rw [h2] at g2
        split
        · rcases h3 : checkAssignmentCompatibility tt vt s2 with ⟨ok, s3⟩
          simp only [h3]
          split
          · exact Or.inl (tcError_ne_nil _ _)
          · rcases g1 with e1 | ⟨hc1, hcl1⟩
            · have e2 : s2.errors ≠ [] :=
                GoodState.absorb e1 (extendSnd h2 (visitExpr_extends fuel value s1))
              exact Or.inl (GoodState.absorb e2
                (extendSnd h3 (checkAssignmentCompatibility_extends tt vt s2)))
            · have gs3 : GoodState s3 := by
                have hh := checkAssignmentCompatibility_good tt vt g2.state
                rw [h3] at hh
                exact hh
              exact GoodTyped.mk gs3 hcl1
        · split
          · exact Or.inl (tcError_ne_nil _ _)
          · rename_i binaryOp _
            rcases h3 : checkBinaryOp binaryOp tt vt s2 with ⟨res, s3⟩
            simp only [h3]
            split
            · exact Or.inl (tcError_ne_nil _ _)
            · rcases g1 with e1 | ⟨hc1, hcl1⟩
              · have e2 : s2.errors ≠ [] :=
                  GoodState.absorb e1 (extendSnd h2 (visitExpr_extends fuel value s1))
                exact Or.inl (GoodState.absorb e2
                  (extendSnd h3 (checkBinaryOp_extends binaryOp tt vt s2)))
              · have gcb := checkBinaryOp_good binaryOp tt vt g2.state
                rw [h3] at gcb
                exact GoodTyped.mk gcb.state hcl1
      | MemberExpression obj member isPtr =>
        simp only [visitExpr]
        rcases h1 : visitExpr fuel obj s with ⟨ot, s1⟩
        simp only [h1]
        exact Or.inl (tcError_ne_nil _ _)
      | IndexExpression arr idx =>
        simp only [visitExpr]
        rcases h1 : visitExpr fuel arr s with ⟨at1, s1⟩
        rcases h2 : visitExpr fuel idx s1 with ⟨it, s2⟩
        simp only [h1, h2]
        have g1 := ihE arr s hg; rw [h1] at g1
        have g2 := ihE idx s1 g1.state; rw [h2] at g2
        split
        · exact Or.inl (tcError_ne_nil _ _)
        · rename_i hknd
          split
          · exact Or.inl (tcError_ne_nil _ _)
          · rcases g1 with e1 | ⟨hc1, hcl1⟩
            · exact Or.inl (GoodState.absorb e1
                (extendSnd h2 (visitExpr_extends fuel idx s1)))
            · have hk : at1.getKind = .Array := by simpa using hknd
              exact GoodTyped.mk g2.state (TypeClean_getElementType hcl1 hk)
      | ArrayLiteral elements =>
        simp only [visitExpr]
        exact ihAL elements s hg
      | ThisExpression =>
        simp only [visitExpr]
        exact visitThisExpr_good hg
    have hAL : ∀ es s, GoodState s → GoodTyped (visitArrayLiteral (fuel + 1) es s) := by
      intro es s hg
      cases es with
      | nil => exact Or.inl (tcError_ne_nil _ _)
      | cons e0 rest =>
        simp only [visitArrayLiteral]
        rcases h1 : visitExpr fuel e0 s with ⟨et, s1⟩
        simp only [h1]
        have g1 := ihE e0 s hg; rw [h1] at g1
        exact ihAEL et rest s1 g1
    have hAEL : ∀ t es s, GoodTyped (t, s) →
        GoodTyped (arrayElementsCheckLoop (fuel + 1) t es s) := by
      intro t es s hg
      cases es with
      | nil =>
        rcases hg with he | ⟨hc, hcl⟩
        · exact Or.inl he
        · exact Or.inr ⟨hc, by simp [TypeClean, hcl]⟩
      | cons e rest =>
        simp only [arrayElementsCheckLoop]
        rcases h1 : visitExpr fuel e s with ⟨nt, s1⟩
        simp only [h1]
        have g1 := ihE e s hg.state; rw [h1] at g1
        split
        · exact Or.inl (tcError_ne_nil _ _)
        · refine ihAEL t rest s1 ?_
          rcases hg with he | ⟨hc, hcl⟩
          · exact Or.inl (GoodState.absorb he
              (extendSnd h1 (visitExpr_extends fuel e s)))
          · exact GoodTyped.mk g1.state hcl
    have hCFC : ∀ ct args ta s, GoodTyped (ct, s) →
        GoodTyped (checkFunctionCall (fuel + 1) ct args ta s) := by
      intro ct args ta s hg
      simp only [checkFunctionCall]
      split
      · exact Or.inl (tcError_ne_nil _ _)
      · rename_i hknd
        split
        · exact Or.inl (tcError_ne_nil _ _)
        · rcases hg with he | ⟨hc, hcl⟩
          · exact Or.inl (GoodState.absorb he (callArgsCheckLoop_extends fuel _ s))
          · have hk : ct.getKind = .Function := by simpa using hknd
            have gs := ihCAL (args.zip ct.getParameterTypes) s (Or.inr hc)
            exact GoodTyped.mk gs (TypeClean_getReturnType hcl hk)
    have hCAL : ∀ ps s, GoodState s → GoodState (callArgsCheckLoop (fuel + 1) ps s) := by
      intro ps s hg
      cases ps with
      | nil => exact hg
      | cons pair rest =>
        obtain ⟨arg, pt⟩ := pair
        simp only [callArgsCheckLoop]
        rcases h1 : visitExpr fuel arg s with ⟨at1, s1⟩
        simp only [h1]
        have g1 := ihE arg s hg; rw [h1] at g1
        split
        · exact ihCAL rest _ (Or.inl (tcError_ne_nil _ _))
        · exact ihCAL rest _ g1.state
    have hT : ∀ ty s, GoodState s → GoodTyped (visitType (fuel + 1) ty s) := by
      intro ty s hg
      cases ty with
      | PrimitiveType tt =>
        simp only [visitType]
        exact visitPrimitiveType_good tt hg
      | NamedType n =>
        simp only [visitType]
        exact visitNamedType_good n hg
      | QualifiedType qs =>
        simp only [visitType]
        exact visitQualifiedType_good qs hg
      | ArrayType elem size? =>
        simp only [visitType]
        rcases h1 : visitType fuel elem s with ⟨et, s1⟩
        simp only [h1]
        have g1 := ihT elem s hg; rw [h1] at g1
        cases size? with
        | none =>
          rcases g1 with e1 | ⟨hc1, hcl1⟩
          · exact Or.inl e1
          · exact Or.inr ⟨hc1, by simp [TypeClean, hcl1]⟩
        | some sizeExpr =>
          simp only []
          rcases h2 : visitExpr fuel sizeExpr s1 with ⟨st2, s2⟩
          simp only [h2]
          have g2 := ihE sizeExpr s1 g1.state; rw [h2] at g2
          split
          · exact Or.inl (tcError_ne_nil _ _)
          · rcases g1 with e1 | ⟨hc1, hcl1⟩
            · exact Or.inl (GoodState.absorb e1
                (extendSnd h2 (visitExpr_extends fuel sizeExpr s1)))
            · exact GoodTyped.mk g2.state (by simp [TypeClean, hcl1])
      | PointerType base kind =>
        simp only [visitType]
        rcases h1 : visitType fuel base s with ⟨pt, s1⟩
        simp only [h1]
        have g1 := ihT base s hg; rw [h1] at g1
        rcases g1 with e1 | ⟨hc1, hcl1⟩
        · exact Or.inl e1
        · exact Or.inr ⟨hc1, by simp [TypeClean, hcl1]⟩
      | ReferenceType base =>
        simp only [visitType]
        rcases h1 : visitType fuel base s with ⟨bt, s1⟩
        simp only [h1]
        have g1 := ihT base s hg; rw [h1] at g1
        rcases g1 with e1 | ⟨hc1, hcl1⟩
        · exact Or.inl e1
        · exact Or.inr ⟨hc1, by simp [TypeClean, hcl1]⟩
      | UnionType l r =>
        simp only [visitType]
        rcases h1 : visitType fuel l s with ⟨lt, s1⟩
        rcases h2 : visitType fuel r s1 with ⟨rt, s2⟩
        simp only [h1, h2]
        have g1 := ihT l s hg; rw [h1] at g1
        have g2 := ihT r s1 g1.state; rw [h2] at g2
        rcases g1 with e1 | ⟨hc1, hcl1⟩
        · exact Or.inl (GoodState.absorb e1
            (extendSnd h2 (visitType_extends fuel r s1)))
        · rcases g2 with e2 | ⟨hc2, hcl2⟩
          · exact Or.inl e2
          · exact Or.inr ⟨hc2, by simp [TypeClean, hcl1, hcl2]⟩
    have hVD : ∀ v s, GoodState s → GoodTyped (visitVarDecl (fuel + 1) v s) := by
      intro v s hg
      obtain ⟨name, ty?, init?, sc, isC⟩ := v
      simp only [visitVarDecl]
      cases init? with
      | none =>
        simp only []
        cases ty? with
        | none => exact Or.inl (tcError_ne_nil _ _)
        | some ty =>
          rcases h1 : visitType fuel ty s with ⟨dt, s1⟩
          simp only [h1]
          have g1 := ihT ty s hg; rw [h1] at g1
          rcases g1 with e1 | ⟨hc1, hcl1⟩
          · exact Or.inl (by rw [declareVariable_errors]; exact e1)
          · exact Or.inr ⟨CleanState.declareVar hc1 name hcl1, hcl1⟩
      | some init =>
        simp only []
        rcases h1 : visitExpr fuel init s with ⟨it, s1⟩
        simp only [h1]
        have g1 := ihE init s hg; rw [h1] at g1
        cases ty? with
        | none =>
          simp only []
          rcases g1 with e1 | ⟨hc1, hcl1⟩
          · exact Or.inl (by rw [declareVariable_errors]; exact e1)
          · exact Or.inr ⟨CleanState.declareVar hc1 name hcl1, hcl1⟩
        | some ty =>
          simp only []
          rcases h2 : visitType fuel ty s1 with ⟨dt, s2⟩
          simp only [h2]
          have g2 := ihT ty s1 g1.state; rw [h2] at g2
          rcases h3 : checkAssignmentCompatibility dt it s2 with ⟨ok, s3⟩
          simp only [h3]
          split
          · exact Or.inl (tcError_ne_nil _ _)
          · rcases g2 with e2 | ⟨hc2, hcl2⟩
            · have e3 : s3.errors ≠ [] := GoodState.absorb e2
                (extendSnd h3 (checkAssignmentCompatibility_extends dt it s2))
              exact Or.inl (by rw [declareVariable_errors]; exact e3)
            · have gs3 : GoodState s3 := by
                have hh := checkAssignmentCompatibility_good dt it (Or.inr hc2)
                rw [h3] at hh
                exact hh
              rcases gs3 with e3 | hc3
              · exact Or.inl (by rw [declareVariable_errors]; exact e3)
              · exact Or.inr ⟨CleanState.declareVar hc3 name hcl2, hcl2⟩
    have hP : ∀ p s, GoodState s → GoodTyped (visitParameter (fuel + 1) p s) := by
      intro p s hg
      obtain ⟨pname, pty, pdef, pref, pconst⟩ := p
      simp only [visitParameter]
      rcases h1 : visitType fuel pty s with ⟨pt, s1⟩
      simp only [h1]
      have g1 := ihT pty s hg; rw [h1] at g1
      cases pdef with
      | none =>
        rcases g1 with e1 | ⟨hc1, hcl1⟩
        · exact Or.inl e1
        · refine Or.inr ⟨hc1, ?_⟩
          cases pref <;> simp [TypeClean, hcl1]
      | some dv =>
        simp only []
        rcases h2 : visitExpr fuel dv s1 with ⟨dt, s2⟩
        simp only [h2]
        have g2 := ihE dv s1 g1.state; rw [h2] at g2
        rcases h3 : checkAssignmentCompatibility _ dt s2 with ⟨ok, s3⟩
        simp only [h3]
        have gs3 : GoodState s3 := by
          have hh := checkAssignmentCompatibility_good
            (if pref = true then ResolvedType.Reference pt else pt) dt g2.state
          rw [h3] at hh
          exact hh
        rcases g1 with e1 | ⟨hc1, hcl1⟩
        · have e2 : s2.errors ≠ [] := GoodState.absorb e1
            (extendSnd h2 (visitExpr_extends fuel dv s1))
          have e3 : s3.errors ≠ [] := GoodState.absorb e2
            (extendSnd h3 (checkAssignmentCompatibility_extends _ dt s2))
          refine Or.inl ?_
          split <;> split <;> first | exact tcError_ne_nil _ _ | exact e3
        · have hclR : TypeClean (ResolvedType.Reference pt) = true := by
            simp [TypeClean, hcl1]
          rcases gs3 with e3 | hc3
          · refine Or.inl ?_
            split <;> split <;> first | exact tcError_ne_nil _ _ | exact e3
          · split <;> split
            · exact Or.inl (tcError_ne_nil _ _)
            · exact Or.inr ⟨hc3, hclR⟩
            · exact Or.inl (tcError_ne_nil _ _)
            · exact Or.inr ⟨hc3, hcl1⟩
    have hPTL : ∀ ps acc s, GoodListRes (acc, s) →
        GoodListRes (paramTypesLoop (fuel + 1) ps acc s) := by
      intro ps acc s hg
      cases ps with
      | nil => exact hg
      | cons p rest =>
        simp only [paramTypesLoop]
        rcases h1 : visitParameter fuel p s with ⟨pt, s1⟩
        simp only [h1]
        have g1 := ihP p s hg.toGoodState; rw [h1] at g1
        refine ihPTL rest (acc ++ [pt]) s1 ?_
        rcases hg with he | ⟨hc, hall⟩
        · exact Or.inl (GoodState.absorb he
            (extendSnd h1 (visitParameter_extends fuel p s)))
        · rcases g1 with e1 | ⟨hc1, hcl1⟩
          · exact Or.inl e1
          · refine Or.inr ⟨hc1, ?_⟩
            intro t ht
            rcases List.mem_append.mp ht with ht | ht
            · exact hall t ht
            · obtain rfl := List.mem_singleton.mp ht
              exact hcl1
    have hDPL : ∀ ps s, GoodState s → GoodState (declareParamsLoop (fuel + 1) ps s) := by
      intro ps s hg
      cases ps with
      | nil => exact hg
      | cons p rest =>
        simp only [declareParamsLoop]
        rcases h1 : visitParameter fuel p s with ⟨pt, s1⟩
        simp only [h1]
        have g1 := ihP p s hg; rw [h1] at g1
        exact ihDPL rest _ (GoodState.declareVarG p.name g1)
    have hTailG : ∀ (s1 : CheckerState) (retT : ResolvedType) (n : String)
        (ps : List ParameterNode) (b : Option (List Statement)),
        GoodTyped (retT, s1) → GoodTyped
          (let (paramTypes, s) := paramTypesLoop fuel ps [] s1
           let functionType := ResolvedType.Function retT paramTypes
           let s := declareFunction s n functionType
           let s := enterFunctionScope s retT
           let s := declareParamsLoop fuel ps s
           let s := match b with
             | some body => (visitBlock fuel body s).2
             | none => s
           let s := exitFunctionScope s
           ((functionType : ResolvedType), s)) := by
      intro s1 retT n ps b hrt
      rcases h2 : paramTypesLoop fuel ps [] s1 with ⟨pts, s2⟩
      simp only [h2]
      rcases hrt with e1 | ⟨hc1, hclrt⟩
      · have e2 : s2.errors ≠ [] := GoodState.absorb e1
          (extendSnd h2 (paramTypesLoop_extends fuel ps [] s1))
        have e4 : (enterFunctionScope (declareFunction s2 n
            (ResolvedType.Function retT pts)) retT).errors ≠ [] := by
          show (declareFunction s2 n (ResolvedType.Function retT pts)).errors ≠ []
          rw [declareFunction_errors]
          exact e2
        have e5 := GoodState.absorb e4 (declareParamsLoop_extends fuel ps _)
        cases b with
        | none => exact Or.inl e5
        | some body =>
          exact Or.inl (GoodState.absorb e5 (visitBlock_extends fuel body _))
      · have gPTL : GoodListRes (pts, s2) := by
          have hh := ihPTL ps [] s1 (GoodListRes.nilOf (Or.inr hc1))
          rw [h2] at hh
          exact hh
        rcases gPTL with e2 | ⟨hc2, hall⟩
        · have e4 : (enterFunctionScope (declareFunction s2 n
              (ResolvedType.Function retT pts)) retT).errors ≠ [] := by
            show (declareFunction s2 n (ResolvedType.Function retT pts)).errors ≠ []
            rw [declareFunction_errors]
            exact e2
          have e5 := GoodState.absorb e4 (declareParamsLoop_extends fuel ps _)
          cases b with
          | none => exact Or.inl e5
          | some body =>
            exact Or.inl (GoodState.absorb e5 (visitBlock_extends fuel body _))
        · have hclF : TypeClean (ResolvedType.Function retT pts) = true := by
            simp [TypeClean, hclrt, TypeCleanList_of_mem hall]
          have hc3 : CleanState (declareFunction s2 n
              (ResolvedType.Function retT pts)) := CleanState.declareFn hc2 n hclF
          have hc4 : CleanState (enterFunctionScope (declareFunction s2 n
              (ResolvedType.Function retT pts)) retT) := CleanState.enterFn hc3 retT
          have gs5 := ihDPL ps _ (Or.inr hc4)
          rcases gs5 with e5 | hc5
          · cases b with
            | none => exact Or.inl e5
            | some body =>
              exact Or.inl (GoodState.absorb e5 (visitBlock_extends fuel body _))
          · cases b with
            | none => exact GoodTyped.mk (Or.inr (CleanState.exitFn hc5)) hclF
            | some body =>
              have g6 := ihB body _ (Or.inr hc5)
              rcases g6.state with e6 | hc6
              · exact Or.inl e6
              · exact GoodTyped.mk (Or.inr (CleanState.exitFn hc6)) hclF
    have hFD : ∀ n ps rt b s, GoodState s →
        GoodTyped (visitFuncDecl (fuel + 1) n ps rt b s) := by
      intro n ps rt b s hg
      cases rt with
      | none =>
        simp only [visitFuncDecl]
        exact hTailG s .Void n ps b (GoodTyped.mk hg (by simp [TypeClean]))
      | some rtt =>
        simp only [visitFuncDecl]
        rcases h1 : visitType fuel rtt s with ⟨retT, s1⟩
        simp only [h1]
        have g1 := ihT rtt s hg; rw [h1] at g1
        exact hTailG s1 retT n ps b g1
    have hB : ∀ sts s, GoodState s → GoodTyped (visitBlock (fuel + 1) sts s) := by
      intro sts s hg
      simp only [visitBlock]
      have gs2 := ihBL sts (enterScope s) (GoodState.enterS hg)
      rcases gs2 with e2 | hc2
      · exact Or.inl e2
      · exact GoodTyped.mk (Or.inr (CleanState.exit hc2)) (by simp [TypeClean])
    have hBL : ∀ sts s, GoodState s → GoodState (blockStmtsLoop (fuel + 1) sts s) := by
      intro sts s hg
      cases sts with
      | nil => exact hg
      | cons st rest =>
        simp only [blockStmtsLoop]
        rcases h1 : visitStmt fuel st s with ⟨t1, s1⟩
        simp only [h1]
        have g1 := ihS st s hg; rw [h1] at g1
        exact ihBL rest s1 g1.state
    have hDS : ∀ d s, GoodState s → GoodTyped (visitDeclarationStmt (fuel + 1) d s) := by
      intro d s hg
      cases d with
      | VarDecl v =>
        simp only [visitDeclarationStmt]
        exact ihVD v s hg
      | FunctionDecl n ps rt b =>
        simp only [visitDeclarationStmt]
        exact ihFD n ps rt b s hg
    have hS : ∀ st s, GoodState s → GoodTyped (visitStmt (fuel + 1) st s) := by
      intro st s hg
      cases st with
      | ExpressionStmt e =>
        simp only [visitStmt]
        rcases h1 : visitExpr fuel e s with ⟨t1, s1⟩
        simp only [h1]
        have g1 := ihE e s hg; rw [h1] at g1
        exact GoodTyped.mk g1.state (by simp [TypeClean])
      | Block stmts =>
        simp only [visitStmt]
        exact ihB stmts s hg
      | BreakStmt =>
        simp only [visitStmt]
        split
        · exact Or.inl (tcError_ne_nil _ _)
        · exact GoodTyped.mk hg (by simp [TypeClean])
      | ContinueStmt =>
        simp only [visitStmt]
        split
        · exact Or.inl (tcError_ne_nil _ _)
        · exact GoodTyped.mk hg (by simp [TypeClean])
      | DeclarationStmt d =>
        simp only [visitStmt]
        exact ihDS d s hg
    exact ⟨hExpr, hAL, hAEL, hCFC, hCAL, hT, hVD, hP, hPTL, hDPL, hFD, hS, hB, hBL, hDS⟩

end Tspp

namespace Tspp

theorem visitExpr_good (fuel : Nat) (e : Expression) {s : CheckerState}
    (hg : GoodState s) : GoodTyped (visitExpr fuel e s) :=
  (checker_good fuel).1 e s hg

theorem visitVarDecl_good (fuel : Nat) (v : VarDeclNode) {s : CheckerState}
    (hg : GoodState s) : GoodTyped (visitVarDecl fuel v s) :=
  (checker_good fuel).2.2.2.2.2.2.1 v s hg

theorem visitFuncDecl_good (fuel : Nat) (n : String) (ps : List ParameterNode)
    (rt : Option TypeNode) (b : Option (List Statement)) {s : CheckerState}
    (hg : GoodState s) : GoodTyped (visitFuncDecl fuel n ps rt b s) :=
  (checker_good fuel).2.2.2.2.2.2.2.2.2.2.1 n ps rt b s hg

theorem visitStmt_good (fuel : Nat) (st : Statement) {s : CheckerState}
    (hg : GoodState s) : GoodTyped (visitStmt fuel st s) :=
  (checker_good fuel).2.2.2.2.2.2.2.2.2.2.2.1 st s hg

/-- The constructor-built state is clean: the five built-in type bindings
are the primitive resolved types, no Error type is reachable. -/
theorem initialCheckerState_clean : CleanState initialCheckerState := by
  have h : initialCheckerState =
      { scopes :=
          [{ variables_ := [],
             functions_ := [],
             types_ := [("string", ResolvedType.String),
                        ("bool", ResolvedType.Bool),
                        ("float", ResolvedType.Float),
                        ("int", ResolvedType.Int),
                        ("void", ResolvedType.Void)] }],
        errors := [],
        inLoop := false,
        currentFunctionReturnType := none,
        currentClassType := none } := rfl
  rw [h]
  refine ⟨?_, ?_⟩
  · intro f hf
    simp only [List.mem_singleton] at hf
    subst hf
    refine ⟨fun p hp => by simp at hp, fun p hp => by simp at hp, fun p hp => ?_⟩
    fin_cases hp <;> simp [TypeClean]
  · intro t ht
    simp at ht

/-- One step of the second pass: if the accumulated flag comes out false,
some error diagnostic is in the final state (the flag only flips to false
on an Error-kind result, and an Error-kind result in a good state implies a
reported diagnostic). -/
theorem checkASTSecondPass_false (fuel : Nat) (nodes : List TopNode) :
    ∀ (success : Boolean) (s : CheckerState), GoodState s →
    (success = false → s.errors ≠ []) →
    (checkASTSecondPass fuel nodes success s).1 = false →
    (checkASTSecondPass fuel nodes success s).2.errors ≠ [] := by
  induction nodes with
  | nil =>
    intro success s hg hs hf
    exact hs hf
  | cons node rest ih =>
    intro success s hg hs hf
    have step : ∀ (t : ResolvedType) (s1 : CheckerState), GoodTyped (t, s1) →
        ErrsExtend s s1 →
        (checkASTSecondPass fuel rest
          (if t.getKind == TypeKind.Error then false else success) s1).1 = false →
        (checkASTSecondPass fuel rest
          (if t.getKind == TypeKind.Error then false else success) s1).2.errors ≠ [] := by
      intro t s1 g1 hext hf1
      refine ih _ s1 g1.state ?_ hf1
      intro hfalse
      by_cases hk : (t.getKind == TypeKind.Error) = true
      · exact GoodTyped.error_reported g1 (by simpa using hk)
      · rw [if_neg hk] at hfalse
        exact GoodState.absorb (hs hfalse) hext
    cases node with
    | Stmt st =>
      simp only [checkASTSecondPass] at hf ⊢
      rcases h1 : visitStmt fuel st s with ⟨t, s1⟩
      simp only [h1] at hf ⊢
      have g1 := visitStmt_good fuel st hg; rw [h1] at g1
      exact step t s1 g1 (extendSnd h1 (visitStmt_extends fuel st s)) hf
    | Decl d =>
      cases d with
      | VarDecl v =>
        simp only [checkASTSecondPass] at hf ⊢
        rcases h1 : visitVarDecl fuel v s with ⟨t, s1⟩
        simp only [h1] at hf ⊢
        have g1 := visitVarDecl_good fuel v hg; rw [h1] at g1
        exact step t s1 g1 (extendSnd h1 (visitVarDecl_extends fuel v s)) hf
      | FunctionDecl n ps rt b =>
        simp only [checkASTSecondPass] at hf ⊢
        rcases h1 : visitFuncDecl fuel n ps rt b s with ⟨t, s1⟩
        simp only [h1] at hf ⊢
        have g1 := visitFuncDecl_good fuel n ps rt b hg; rw [h1] at g1
        exact step t s1 g1 (extendSnd h1 (visitFuncDecl_extends fuel n ps rt b s)) hf

/-- A declaration with neither a type annotation nor an initializer: its
visit yields the Error kind, so the second pass clears the success flag. -/
def noTypeNoInitDecl : VarDeclNode :=
  { name := "x", type := none, initializer := none,
    storageClass := .IDENTIFIER, isConst := false }

end Tspp

namespace Tspp

/-- C1 amended: one direction of the claimed equivalence holds — whenever
`checkAST` returns `false`, at least one error diagnostic was reported.
(The converse fails: see the counterexample, where an error is reported in a
function body yet `checkAST` returns `true`, because the success flag tracks
Error-kind visit results rather than the reporter.) -/
theorem claim_C1_amended (fuel : Nat) (nodes : List TopNode)
    (hf : (checkAST fuel nodes initialCheckerState).1 = false) :
    (checkAST fuel nodes initialCheckerState).2.errors ≠ [] := by
  refine checkASTSecondPass_false fuel nodes true initialCheckerState
    (Or.inr initialCheckerState_clean) ?_ hf
  intro h
  cases h

/-- Witness: on `let x;` (a declaration with neither type nor initializer)
`checkAST` returns `false`, and the amended theorem yields a nonempty
diagnostic list. -/
theorem claim_C1_amended_witness :
    (checkAST 1 [TopNode.Decl (DeclNode.VarDecl noTypeNoInitDecl)]
      initialCheckerState).1 = false ∧
    (checkAST 1 [TopNode.Decl (DeclNode.VarDecl noTypeNoInitDecl)]
      initialCheckerState).2.errors ≠ [] :=
  ⟨rfl, claim_C1_amended 1 [TopNode.Decl (DeclNode.VarDecl noTypeNoInitDecl)] rfl⟩

end Tspp

namespace Tspp

mutual

/-- An expression that syntactically contains an empty array literal `[]`
somewhere inside it. -/
def containsEmptyArray : Expression → Boolean
  | .IdentifierExpression _ => false
  | .LiteralExpression _ _ => false
  | .BinaryExpression _ l r => containsEmptyArray l || containsEmptyArray r
  | .UnaryExpression _ o _ => containsEmptyArray o
  | .AssignmentExpression _ t v => containsEmptyArray t || containsEmptyArray v
  | .CallExpression callee args _ =>
      containsEmptyArray callee || containsEmptyArrayList args
  | .MemberExpression o _ _ => containsEmptyArray o
  | .IndexExpression a i => containsEmptyArray a || containsEmptyArray i
  | .ArrayLiteral es => es.isEmpty || containsEmptyArrayList es
  | .ThisExpression => false

/-- Some member of the list contains an empty array literal. -/
def containsEmptyArrayList : List Expression → Boolean
  | [] => false
  | e :: es => containsEmptyArray e || containsEmptyArrayList es

end

end Tspp

namespace Tspp

set_option maxHeartbeats 800000 in
theorem emptyArray_reported : ∀ fuel : Nat,
    (∀ e s, containsEmptyArray e = true → (visitExpr fuel e s).2.errors ≠ []) ∧
    (∀ es s, (es.isEmpty || containsEmptyArrayList es) = true →
      (visitArrayLiteral fuel es s).2.errors ≠ []) ∧
    (∀ t es s, containsEmptyArrayList es = true →
      (arrayElementsCheckLoop fuel t es s).2.errors ≠ []) ∧
    (∀ ct args ta s, containsEmptyArrayList args = true →
      (checkFunctionCall fuel ct args ta s).2.errors ≠ []) ∧
    (∀ ps s, containsEmptyArrayList (ps.map Prod.fst) = true →
      (callArgsCheckLoop fuel ps s).errors ≠ []) := by
  intro fuel
  induction fuel with
  | zero =>
    refine ⟨?_, ?_, ?_, ?_, ?_⟩ <;> intros <;> exact tcError_ne_nil _ _
  | succ fuel ih =>
    obtain ⟨cE, cAL, cAEL, cCFC, cCAL⟩ := ih
    have hCE : ∀ e s, containsEmptyArray e = true →
        (visitExpr (fuel + 1) e s).2.errors ≠ [] := by
      intro e s hce
      cases e with
      | IdentifierExpression n => simp [containsEmptyArray] at hce
      | LiteralExpression tt v => simp [containsEmptyArray] at hce
      | ThisExpression => simp [containsEmptyArray] at hce
      | BinaryExpression op l r =>
        simp only [visitExpr]
        rcases h1 : visitExpr fuel l s with ⟨lt, s1⟩
        rcases h2 : visitExpr fuel r s1 with ⟨rt, s2⟩
        simp only [h1, h2]
        simp only [containsEmptyArray, Bool.or_eq_true] at hce
        have e2 : s2.errors ≠ [] := by
          rcases hce with hl | hr
          · have e1 := cE l s hl
            rw [h1] at e1
            exact GoodState.absorb e1 (extendSnd h2 (visitExpr_extends fuel r s1))
          · have ee := cE r s1 hr
            rw [h2] at ee
            exact ee
        exact GoodState.absorb e2 (checkBinaryOp_extends op lt rt s2)
      | UnaryExpression op operand pf =>
        simp only [visitExpr]
        rcases h1 : visitExpr fuel operand s with ⟨ot, s1⟩
        simp only [h1]
        simp only [containsEmptyArray] at hce
        have e1 := cE operand s hce
        rw [h1] at e1
        exact GoodState.absorb e1 (checkUnaryOp_extends op ot s1)
      | CallExpression callee args typeArgs =>
        simp only [visitExpr]
        rcases h1 : visitExpr fuel callee s with ⟨ct, s1⟩
        simp only [h1]
        simp only [containsEmptyArray, Bool.or_eq_true] at hce
        split
        · exact tcError_ne_nil _ _
        · rcases hce with hcal | hargs
          · have e1 := cE callee s hcal
            rw [h1] at e1
            exact GoodState.absorb e1
              (checkFunctionCall_extends fuel ct args typeArgs s1)
          · exact cCFC ct args typeArgs s1 hargs
      | AssignmentExpression op target value =>
        simp only [visitExpr]
        rcases h1 : visitExpr fuel target s with ⟨tt, s1⟩
        rcases h2 : visitExpr fuel value s1 with ⟨vt, s2⟩
        simp only [h1, h2]
        simp only [containsEmptyArray, Bool.or_eq_true] at hce
        have e2 : s2.errors ≠ [] := by
          rcases hce with ht | hv
          · have e1 := cE target s ht
            rw [h1] at e1
            exact GoodState.absorb e1 (extendSnd h2 (visitExpr_extends fuel value s1))
          · have ee := cE value s1 hv
            rw [h2] at ee
            exact ee
        split
        · rcases h3 : checkAssignmentCompatibility tt vt s2 with ⟨ok, s3⟩
          simp only [h3]
          have e3 := GoodState.absorb e2
            (extendSnd h3 (checkAssignmentCompatibility_extends tt vt s2))
          split
          · exact tcError_ne_nil _ _
          · exact e3
        · split
          · exact tcError_ne_nil _ _
          · rename_i binaryOp _
            rcases h3 : checkBinaryOp binaryOp tt vt s2 with ⟨res, s3⟩
            simp only [h3]
            have e3 := GoodState.absorb e2
              (extendSnd h3 (checkBinaryOp_extends binaryOp tt vt s2))
            split
            · exact tcError_ne_nil _ _
            · exact e3
      | MemberExpression obj member isPtr =>
        simp only [visitExpr]
        rcases h1 : visitExpr fuel obj s with ⟨ot, s1⟩
        simp only [h1]
        exact tcError_ne_nil _ _
      | IndexExpression arr idx =>
        simp only [visitExpr]
        rcases h1 : visitExpr fuel arr s with ⟨at1, s1⟩
        rcases h2 : visitExpr fuel idx s1 with ⟨it, s2⟩
        simp only [h1, h2]
        simp only [containsEmptyArray, Bool.or_eq_true] at hce
        have e2 : s2.errors ≠ [] := by
          rcases hce with ha | hi
          · have e1 := cE arr s ha
            rw [h1] at e1
            exact GoodState.absorb e1 (extendSnd h2 (visitExpr_extends fuel idx s1))
          · have ee := cE idx s1 hi
            rw [h2] at ee
            exact ee
        split
        · exact tcError_ne_nil _ _
        · split
          · exact tcError_ne_nil _ _
          · exact e2
      | ArrayLiteral elements =>
        simp only [visitExpr]
        simp only [containsEmptyArray] at hce
        exact cAL elements s hce
    have hCAL2 : ∀ es s, (es.isEmpty || containsEmptyArrayList es) = true →
        (visitArrayLiteral (fuel + 1) es s).2.errors ≠ [] := by
      intro es s hce
      cases es with
      | nil => exact tcError_ne_nil _ _
      | cons e0 rest =>
        simp only [visitArrayLiteral]
        rcases h1 : visitExpr fuel e0 s with ⟨et, s1⟩
        simp only [h1]
        simp only [List.isEmpty_cons, containsEmptyArrayList, Bool.false_or,
          Bool.or_eq_true] at hce
        rcases hce with h0 | hrest
        · have e1 := cE e0 s h0
          rw [h1] at e1
          exact GoodState.absorb e1 (arrayElementsCheckLoop_extends fuel et rest s1)
        · exact cAEL et rest s1 hrest
    have hAEL2 : ∀ t es s, containsEmptyArrayList es = true →
        (arrayElementsCheckLoop (fuel + 1) t es s).2.errors ≠ [] := by
      intro t es s hce
      cases es with
      | nil => simp [containsEmptyArrayList] at hce
      | cons e rest =>
        simp only [arrayElementsCheckLoop]
        rcases h1 : visitExpr fuel e s with ⟨nt, s1⟩
        simp only [h1]
        simp only [containsEmptyArrayList, Bool.or_eq_true] at hce
        split
        · exact tcError_ne_nil _ _
        · rcases hce with h0 | hrest
          · have e1 := cE e s h0
            rw [h1] at e1
            exact GoodState.absorb e1 (arrayElementsCheckLoop_extends fuel t rest s1)
          · exact cAEL t rest s1 hrest
    have hCFC2 : ∀ ct args ta s, containsEmptyArrayList args = true →
        (checkFunctionCall (fuel + 1) ct args ta s).2.errors ≠ [] := by
      intro ct args ta s hargs
      simp only [checkFunctionCall]
      split
      · exact tcError_ne_nil _ _
      · split
        · exact tcError_ne_nil _ _
        · rename_i hlen
          refine cCAL (args.zip ct.getParameterTypes) s ?_
          have hl : ct.getParameterTypes.length = args.length := by simpa using hlen
          rw [List.map_fst_zip args ct.getParameterTypes (le_of_eq hl.symm)]
          exact hargs
    have hArgs2 : ∀ ps s, containsEmptyArrayList (ps.map Prod.fst) = true →
        (callArgsCheckLoop (fuel + 1) ps s).errors ≠ [] := by
      intro ps s hps
      cases ps with
      | nil => simp [containsEmptyArrayList] at hps
      | cons pair rest =>
        obtain ⟨arg, pt⟩ := pair
        simp only [callArgsCheckLoop]
        rcases h1 : visitExpr fuel arg s with ⟨at1, s1⟩
        simp only [h1]
        simp only [List.map_cons, containsEmptyArrayList, Bool.or_eq_true] at hps
        have tail : ∀ s2 : CheckerState, s2.errors ≠ [] →
            (callArgsCheckLoop fuel rest s2).errors ≠ [] :=
          fun s2 e => GoodState.absorb e (callArgsCheckLoop_extends fuel rest s2)
        rcases hps with h0 | hrest
        · have e1 := cE arg s h0
          rw [h1] at e1
          split
          · exact tail _ (tcError_ne_nil _ _)
          · exact tail _ e1
        · split
          · exact cCAL rest _ hrest
          · exact cCAL rest _ hrest
    exact ⟨hCE, hCAL2, hAEL2, hCFC2, hArgs2⟩

end Tspp

namespace Tspp

/-- C9: the parser accepts the empty array literal `[]` and builds an
`ArrayLiteral` node with zero elements and no diagnostic; the type checker
reports `Cannot determine type of empty array literal` and yields the Error
type for every empty array literal (any fuel, any state); and no expression
containing `[]` anywhere inside it type-checks without a diagnostic. -/
theorem claim_C9 :
    ((parseExpression 50 (parserStateOf tokensEmptyArray)).1 =
        some (.ArrayLiteral []) ∧
      (parseExpression 50 (parserStateOf tokensEmptyArray)).2.errors = []) ∧
    (∀ (fuel : Nat) (s : CheckerState), visitArrayLiteral (fuel + 1) [] s =
      (.Error, tcError s "Cannot determine type of empty array literal")) ∧
    (∀ (fuel : Nat) (e : Expression) (s : CheckerState),
      containsEmptyArray e = true → (visitExpr fuel e s).2.errors ≠ []) := by
  refine ⟨⟨rfl, rfl⟩, fun fuel s => rfl,
    fun fuel e s h => (emptyArray_reported fuel).1 e s h⟩

/-- Witness for C9's universally quantified conjunct, at the expression
`[]` itself in the constructor-built checker state. -/
theorem claim_C9_witness :
    containsEmptyArray (Expression.ArrayLiteral []) = true ∧
    (visitExpr 1 (Expression.ArrayLiteral []) initialCheckerState).2.errors ≠ [] :=
  ⟨by simp [containsEmptyArray], claim_C9.2.2 1 (Expression.ArrayLiteral [])
    initialCheckerState (by simp [containsEmptyArray])⟩

end Tspp
